import Mathlib

/-!
Verification of the perspective-correction core (`getHomographyMatrix`,
`warpPerspective`) and the corner-point editor (`ImageCropper`) of the
document-scanning subsystem.  JavaScript numbers are modelled as exact
rationals, the flat RGBA buffers as functions from flat indices to byte
values, and the React component state as an explicit event-driven state
machine (including the value of `points` captured by the layout effect's
closure, which the `resize` listener keeps reading).
-/

namespace PerspectiveCore

/-- A 2-D point with rational coordinates (the `Point` interface `{x, y}`). -/
structure Pt where
  x : ℚ
  y : ℚ
deriving DecidableEq

/-- An `n × n` linear system `a · h = b`: the arrays `a : number[][]` and
`b : number[]` manipulated inside `getHomographyMatrix`. -/
structure LinSys (n : ℕ) where
  a : Fin n → Fin n → ℚ
  b : Fin n → ℚ

variable {n : ℕ}

/-- The fold underlying the pivot scan: starting from the current candidate `p`,
move the pivot to `j` whenever `j > i` and `|a[j][i]|` strictly exceeds
`|a[pivot][i]|`. -/
def pivotFold (s : LinSys n) (i : Fin n) (p : Fin n) (l : List (Fin n)) : Fin n :=
  l.foldl (fun p j => if i < j ∧ |s.a p i| < |s.a j i| then j else p) p

/-- Partial-pivot selection for column `i`: scan rows `j > i` in increasing order
(the `for (let j = i + 1; ...)` loop with the `Math.abs` comparison). -/
def pivotSearch (s : LinSys n) (i : Fin n) : Fin n :=
  pivotFold s i i (List.finRange n)

/-- Swap rows `i` and `p` of the matrix and of the right-hand side
(`[a[i], a[pivot]] = [a[pivot], a[i]]` and likewise for `b`). -/
def swapRows (s : LinSys n) (i p : Fin n) : LinSys n where
  a := fun j => if j = i then s.a p else if j = p then s.a i else s.a j
  b := fun j => if j = i then s.b p else if j = p then s.b i else s.b j

/-- One elimination pass below pivot row `i`: for every row `j > i`, subtract
`factor = a[j][i] / a[i][i]` times row `i` from row `j` on columns `k ≥ i`, and
update `b[j]` accordingly (the inner `for (let j = i + 1; ...)` loop).  In ℚ a
zero pivot makes `factor = a[j][i] / 0 = 0`, leaving the rows unchanged. -/
def eliminate (s : LinSys n) (i : Fin n) : LinSys n where
  a := fun j k => if i < j ∧ i ≤ k then s.a j k - s.a j i / s.a i i * s.a i k else s.a j k
  b := fun j => if i < j then s.b j - s.a j i / s.a i i * s.b i else s.b j

/-- One iteration of the outer loop: pivot search, row swap, elimination. -/
def elimStep (s : LinSys n) (i : Fin n) : LinSys n :=
  eliminate (swapRows s i (pivotSearch s i)) i

/-- `elimStep` at a plain natural index, a no-op out of range. -/
def elimStepN (s : LinSys n) (m : ℕ) : LinSys n :=
  if h : m < n then elimStep s ⟨m, h⟩ else s

/-- The system after the first `m` iterations of the outer elimination loop. -/
def elimUpTo (s : LinSys n) : ℕ → LinSys n
  | 0 => s
  | m + 1 => elimStepN (elimUpTo s m) m

/-- Full forward elimination (the outer `for (let i = 0; i < n; i++)` loop). -/
def elimAll (s : LinSys n) : LinSys n := elimUpTo s n

/-- One back-substitution assignment
`x[i] = (b[i] - Σ_{j > i} a[i][j] · x[j]) / a[i][i]`. -/
def backSubStep (s : LinSys n) (x : Fin n → ℚ) (i : Fin n) : Fin n → ℚ :=
  Function.update x i
    ((s.b i - ∑ j ∈ Finset.univ.filter (fun j => i < j), s.a i j * x j) / s.a i i)

/-- Back-substitution state after processing the `m` highest rows: the loop
`for (let i = n - 1; i >= 0; i--)` over an `x` initialised to all zeros. -/
def backSubUpTo (s : LinSys n) : ℕ → (Fin n → ℚ)
  | 0 => fun _ => 0
  | m + 1 =>
    if h : n - 1 - m < n then backSubStep s (backSubUpTo s m) ⟨n - 1 - m, h⟩
    else backSubUpTo s m

/-- The solution vector produced by back-substitution. -/
def backSub (s : LinSys n) : Fin n → ℚ := backSubUpTo s n

/-- `x` solves the system `s`. -/
def Sol (s : LinSys n) (x : Fin n → ℚ) : Prop :=
  ∀ r, ∑ k, s.a r k * x k = s.b r

/-- All entries strictly below the diagonal in the first `m` columns are zero
(the elimination invariant). -/
def IsElim (m : ℕ) (s : LinSys n) : Prop :=
  ∀ j k : Fin n, (k : ℕ) < m → k < j → s.a j k = 0

/-- The 8×8 system assembled by `getHomographyMatrix(src, dst)`: for each corner
index `i`, row `2i` is `[x, y, 1, 0, 0, 0, -x·X, -y·X]` with right-hand side `X`
and row `2i+1` is `[0, 0, 0, x, y, 1, -x·Y, -y·Y]` with right-hand side `Y`,
where `(x, y) = src[i]` and `(X, Y) = dst[i]`. -/
def homographySystem (src dst : Fin 4 → Pt) : LinSys 8 where
  a := fun r c =>
    let p := src ⟨r.val / 2, by omega⟩
    let q := dst ⟨r.val / 2, by omega⟩
    if r.val % 2 = 0 then
      ![p.x, p.y, 1, 0, 0, 0, -p.x * q.x, -p.y * q.x] c
    else
      ![0, 0, 0, p.x, p.y, 1, -p.x * q.y, -p.y * q.y] c
  b := fun r =>
    let q := dst ⟨r.val / 2, by omega⟩
    if r.val % 2 = 0 then q.x else q.y

/-- `getHomographyMatrix(src, dst)`: solve the 8×8 system by Gaussian elimination
with partial pivoting and back-substitution, and return the eight parameters with
the ninth entry fixed to `1` (`return [...x, 1]`). -/
def getHomographyMatrix (src dst : Fin 4 → Pt) : Fin 9 → ℚ :=
  Fin.snoc (backSub (elimAll (homographySystem src dst))) 1

/-- The canonical destination rectangle `(0,0), (W,0), (W,H), (0,H)` in TL, TR,
BR, BL order (the `dstPts` array of `warpPerspective`). -/
def rectCorners (W H : ℚ) : Fin 4 → Pt :=
  ![⟨0, 0⟩, ⟨W, 0⟩, ⟨W, H⟩, ⟨0, H⟩]

/-- The third homogeneous coordinate `w = h[6]·x + h[7]·y + h[8]` of applying the
matrix to a point. -/
def wCoord (h : Fin 9 → ℚ) (p : Pt) : ℚ := h 6 * p.x + h 7 * p.y + h 8

/-- Application of the 9-entry matrix to a point with perspective division,
exactly as in the pixel loop: `u = h[0]·x + h[1]·y + h[2]`,
`v = h[3]·x + h[4]·y + h[5]`, `w = h[6]·x + h[7]·y + h[8]`, result `(u/w, v/w)`. -/
def applyH (h : Fin 9 → ℚ) (p : Pt) : Pt :=
  ⟨(h 0 * p.x + h 1 * p.y + h 2) / wCoord h p,
   (h 3 * p.x + h 4 * p.y + h 5) / wCoord h p⟩

/-- Squared length of the top edge, `(corners[1].x - corners[0].x)² + (corners[1].y - corners[0].y)²`. -/
def topWidthSq (c : Fin 4 → Pt) : ℚ := ((c 1).x - (c 0).x) ^ 2 + ((c 1).y - (c 0).y) ^ 2

/-- Squared length of the bottom edge, from `corners[2]` and `corners[3]`. -/
def bottomWidthSq (c : Fin 4 → Pt) : ℚ := ((c 2).x - (c 3).x) ^ 2 + ((c 2).y - (c 3).y) ^ 2

/-- Squared length of the left edge, from `corners[3]` and `corners[0]`. -/
def leftHeightSq (c : Fin 4 → Pt) : ℚ := ((c 3).x - (c 0).x) ^ 2 + ((c 3).y - (c 0).y) ^ 2

/-- Squared length of the right edge, from `corners[2]` and `corners[1]`. -/
def rightHeightSq (c : Fin 4 → Pt) : ℚ := ((c 2).x - (c 1).x) ^ 2 + ((c 2).y - (c 1).y) ^ 2

/-- `width = Math.floor(Math.max(topWidth, bottomWidth))` with
`topWidth = √(topWidthSq)` etc.; stated executably through the identity
`⌊√q⌋ = Nat.sqrt ⌊q⌋`, proved against the `Real.sqrt` form in
`destWidth_eq_floor_dist` below. -/
def destWidth (c : Fin 4 → Pt) : ℕ :=
  Nat.sqrt (Int.toNat ⌊max (topWidthSq c) (bottomWidthSq c)⌋)

/-- `height = Math.floor(Math.max(leftHeight, rightHeight))`, executable form;
see `destHeight_eq_floor_dist`. -/
def destHeight (c : Fin 4 → Pt) : ℕ :=
  Nat.sqrt (Int.toNat ⌊max (leftHeightSq c) (rightHeightSq c)⌋)

/-- Spec-side Euclidean distance between two points, over ℝ. -/
noncomputable def euclidDist (p q : Pt) : ℝ :=
  Real.sqrt (((p.x : ℝ) - (q.x : ℝ)) ^ 2 + ((p.y : ℝ) - (q.y : ℝ)) ^ 2)

/-- The matrix `warpPerspective` solves for: `getHomographyMatrix(dstPts, srcPts)`
with `dstPts` the canonical rectangle of the floored maximal edge lengths. -/
def warpMatrix (corners : Fin 4 → Pt) : Fin 9 → ℚ :=
  getHomographyMatrix (rectCorners (destWidth corners) (destHeight corners)) corners

/-- A decoded RGBA image: dimensions plus the flat `Uint8ClampedArray` contents,
indexed by `(y * width + x) * 4 + channel`. -/
structure Image where
  width : ℕ
  height : ℕ
  data : ℕ → ℕ

/-- All stored bytes of a real `Uint8ClampedArray` lie in `[0, 255]`. -/
def Image.Wellformed (img : Image) : Prop := ∀ i, img.data i ≤ 255

/-- Storing a number into a `Uint8ClampedArray` slot: clamp to `[0, 255]` and
round, halves to the nearest even integer. -/
def clampByte (q : ℚ) : ℕ :=
  if q ≤ 0 then 0
  else if 255 ≤ q then 255
  else
    (if q - ⌊q⌋ < 1 / 2 then ⌊q⌋
     else if 1 / 2 < q - ⌊q⌋ then ⌊q⌋ + 1
     else if ⌊q⌋ % 2 = 0 then ⌊q⌋ else ⌊q⌋ + 1).toNat

/-- The body of the pixel loop of `warpPerspective` for destination pixel `(x, y)`:
map through the matrix with perspective division; if the source position passes
the bounds check `0 ≤ srcX < width - 1 ∧ 0 ≤ srcY < height - 1`, sample the four
neighbours with bilinear weights per RGB channel and set alpha to 255; otherwise
leave all four RGBA bytes at their zero initialisation. -/
def warpPixelAt (img : Image) (h : Fin 9 → ℚ) (x y : ℕ) : Fin 4 → ℕ :=
  let sx := (applyH h ⟨x, y⟩).x
  let sy := (applyH h ⟨x, y⟩).y
  if 0 ≤ sx ∧ sx < (img.width : ℚ) - 1 ∧ 0 ≤ sy ∧ sy < (img.height : ℚ) - 1 then
    let x0 := Int.toNat ⌊sx⌋
    let x1 := x0 + 1
    let y0 := Int.toNat ⌊sy⌋
    let y1 := y0 + 1
    let wx := sx - (x0 : ℚ)
    let wy := sy - (y0 : ℚ)
    fun c =>
      if c.val < 3 then
        let v00 : ℚ := img.data ((y0 * img.width + x0) * 4 + c.val)
        let v10 : ℚ := img.data ((y0 * img.width + x1) * 4 + c.val)
        let v01 : ℚ := img.data ((y1 * img.width + x0) * 4 + c.val)
        let v11 : ℚ := img.data ((y1 * img.width + x1) * 4 + c.val)
        clampByte ((v00 * (1 - wx) + v10 * wx) * (1 - wy) + (v01 * (1 - wx) + v11 * wx) * wy)
      else 255
  else fun _ => 0

/-- The observable result of `warpPerspective`: destination dimensions and the
RGBA bytes of every destination pixel. -/
structure Warped where
  width : ℕ
  height : ℕ
  pixel : ℕ → ℕ → Fin 4 → ℕ

/-- `warpPerspective(imageSrc, corners)`: destination sizing from the corner
distances, homography solve in the destination→source direction, and the
bilinear resampling loop. -/
def warpPerspective (img : Image) (corners : Fin 4 → Pt) : Warped where
  width := destWidth corners
  height := destHeight corners
  pixel := fun x y => warpPixelAt img (warpMatrix corners) x y

/-- A concrete 2×2 source image whose twelve RGB bytes are all 200 and whose
alpha bytes are 200 as well. -/
def img2 : Image := ⟨2, 2, fun _ => 200⟩

/-- A concrete 1×1 source image. -/
def img1 : Image := ⟨1, 1, fun _ => 10⟩

/-- A concrete 3×3 source image with pairwise distinct channel bytes. -/
def img3 : Image := ⟨3, 3, fun i => i % 200⟩

/-! Corner-point editor (`ImageCropper`). -/

/-- The display geometry record (`displayedImgDims`): displayed size, centering
offsets, and the source/display scale factor. -/
structure LayoutDims where
  width : ℚ
  height : ℚ
  left : ℚ
  top : ℚ
  scale : ℚ
deriving DecidableEq

/-- `updateLayout` of `ImageCropper`: letterbox an image of natural size
`(iW, iH)` inside a container of size `(cW, cH)` with a fixed interior padding
of 40, then derive the centering offsets and `scale = iW / displayWidth`. -/
def updateLayout (cW cH iW iH : ℚ) : LayoutDims :=
  let padding : ℚ := 40
  let availWidth := cW - padding * 2
  let availHeight := cH - padding * 2
  let imgAspect := iW / iH
  let containerAspect := availWidth / availHeight
  let displayWidth := if containerAspect < imgAspect then availWidth else availHeight * imgAspect
  let displayHeight := if containerAspect < imgAspect then availWidth / imgAspect else availHeight
  { width := displayWidth
    height := displayHeight
    left := (cW - displayWidth) / 2
    top := (cH - displayHeight) / 2
    scale := iW / displayWidth }

/-- The displayed image's own corners in TL, TR, BR, BL order: the list that both
the initialisation branch of `updateLayout` and `resetPoints` assign. -/
def displayCorners (L : LayoutDims) : List Pt :=
  [⟨0, 0⟩, ⟨L.width, 0⟩, ⟨L.width, L.height⟩, ⟨0, L.height⟩]

/-- `handleMove`: while a drag of point `i` is active, replace `points[i]` by the
pointer position translated into display-local coordinates
(`pos - containerRect origin - display offset`); no clamping is applied.  With no
drag active the list is returned unchanged. -/
def handleMove (dragging : Option ℕ) (px py rectLeft rectTop : ℚ) (dims : LayoutDims)
    (points : List Pt) : List Pt :=
  match dragging with
  | none => points
  | some i => points.set i ⟨px - rectLeft - dims.left, py - rectTop - dims.top⟩

/-- `resetPoints`: restore all four points to the display's own corners. -/
def resetPoints (dims : LayoutDims) : List Pt := displayCorners dims

/-- A session state of `ImageCropper`: the reactive fields `points`,
`displayedImgDims`, `draggingPointIndex` and `isProcessing`, together with the
value of `points` captured by the layout effect's closure (`none` until the
effect has run; the `resize` listener keeps reading this captured value), and
bookkeeping for `warpPerspective` invocations. -/
structure EditorState where
  points : List Pt
  dims : LayoutDims
  dragging : Option ℕ
  isProcessing : Bool
  capturedPoints : Option (List Pt)
  activeWarps : ℕ
  saved : Bool

/-- The initial render: `points = []`, zero-size display geometry with scale 1,
no drag, not processing, layout effect not yet run. -/
def initState : EditorState where
  points := []
  dims := ⟨0, 0, 0, 0, 1⟩
  dragging := none
  isProcessing := false
  capturedPoints := none
  activeWarps := 0
  saved := false

/-- The body of `updateLayout` as invoked with a captured `points` value:
recompute `displayedImgDims` and, when the captured list is empty
(`points.length === 0` read from the closure), (re)initialise the points to the
displayed corners. -/
def runUpdateLayout (captured : List Pt) (cW cH iW iH : ℚ) (s : EditorState) : EditorState :=
  let L := updateLayout cW cH iW iH
  if captured.length = 0 then { s with dims := L, points := displayCorners L }
  else { s with dims := L }

/-- The events of one editing session. -/
inductive Ev where
  | imageLoad (cW cH iW iH : ℚ)
  | resize (cW cH iW iH : ℚ)
  | pointerDown (i : ℕ)
  | pointerMove (px py rectLeft rectTop : ℚ)
  | pointerUp
  | reset
  | confirm
  | warpFailed
  | warpSucceeded

/-- One step of the session state machine.  `imageLoad` runs the layout effect:
it captures the current `points` value into the effect closure and runs
`updateLayout` once.  `resize` re-runs `updateLayout` through that closure, so
the initialisation guard reads the captured list, not the current one.
`confirm` embeds `handleProcessAndSave`: an early return when `isProcessing` is
already set, otherwise the flag is set and a warp is started. `warpFailed` is the
catch branch (flag reset), `warpSucceeded` the `onSave` hand-off. -/
def applyEv (e : Ev) (s : EditorState) : EditorState :=
  match e with
  | .imageLoad cW cH iW iH =>
    match s.capturedPoints with
    | none => runUpdateLayout s.points cW cH iW iH { s with capturedPoints := some s.points }
    | some _ => s
  | .resize cW cH iW iH =>
    match s.capturedPoints with
    | some captured => runUpdateLayout captured cW cH iW iH s
    | none => s
  | .pointerDown i => { s with dragging := some i }
  | .pointerMove px py rl rt =>
    { s with points := handleMove s.dragging px py rl rt s.dims s.points }
  | .pointerUp => { s with dragging := none }
  | .reset => { s with points := resetPoints s.dims }
  | .confirm =>
    if s.isProcessing then s
    else { s with isProcessing := true, activeWarps := s.activeWarps + 1 }
  | .warpFailed =>
    if s.activeWarps ≠ 0 then { s with activeWarps := s.activeWarps - 1, isProcessing := false }
    else s
  | .warpSucceeded =>
    if s.activeWarps ≠ 0 then { s with activeWarps := s.activeWarps - 1, saved := true }
    else s

/-- States reachable within one editing session. -/
inductive Reachable : EditorState → Prop where
  | init : Reachable initState
  | step (s : EditorState) (e : Ev) : Reachable s → Reachable (applyEv e s)


/-- The session trace exhibiting the resize bug: image load in a 1080×1080
container with a 100×100 image, pointer down on point 0, then a pointer move to
screen position (100, 100) — display-local (60, 60). -/
def c6Trace3 : EditorState :=
  applyEv (Ev.pointerMove 100 100 0 0)
    (applyEv (Ev.pointerDown 0) (applyEv (Ev.imageLoad 1080 1080 100 100) initState))

/-- The same trace followed by a resize event with the identical container and
image sizes. -/
def c6Trace4 : EditorState := applyEv (Ev.resize 1080 1080 100 100) c6Trace3

/-!
Recorded intermediate states of the Gaussian-elimination run on the concrete
system for the corner set `rectCorners 2 2` (the identity case on a 2×2
rectangle); used to discharge the pivot hypotheses of the witnesses below.
-/

/-- The concrete homography system solved for the corner set `rectCorners 2 2`. -/
def s2Sys : LinSys 8 := homographySystem (rectCorners 2 2) (rectCorners 2 2)

/-- Recorded matrix state of the concrete elimination run. -/
def s2A0 : Fin 8 → Fin 8 → ℚ := fun r c =>
  if r.val = 0 then
    (if c.val = 0 then (0 : ℚ) else
    if c.val = 1 then (0 : ℚ) else
    if c.val = 2 then (1 : ℚ) else
    if c.val = 3 then (0 : ℚ) else
    if c.val = 4 then (0 : ℚ) else
    if c.val = 5 then (0 : ℚ) else
    if c.val = 6 then (0 : ℚ) else
    (0 : ℚ))
  else if r.val = 1 then
    (if c.val = 0 then (0 : ℚ) else
    if c.val = 1 then (0 : ℚ) else
    if c.val = 2 then (0 : ℚ) else
    if c.val = 3 then (0 : ℚ) else
    if c.val = 4 then (0 : ℚ) else
    if c.val = 5 then (1 : ℚ) else
    if c.val = 6 then (0 : ℚ) else
    (0 : ℚ))
  else if r.val = 2 then
    (if c.val = 0 then (2 : ℚ) else
    if c.val = 1 then (0 : ℚ) else
    if c.val = 2 then (1 : ℚ) else
    if c.val = 3 then (0 : ℚ) else
    if c.val = 4 then (0 : ℚ) else
    if c.val = 5 then (0 : ℚ) else
    if c.val = 6 then (-4 : ℚ) else
    (0 : ℚ))
  else if r.val = 3 then
    (if c.val = 0 then (0 : ℚ) else
    if c.val = 1 then (0 : ℚ) else
    if c.val = 2 then (0 : ℚ) else
    if c.val = 3 then (2 : ℚ) else
    if c.val = 4 then (0 : ℚ) else
    if c.val = 5 then (1 : ℚ) else
    if c.val = 6 then (0 : ℚ) else
    (0 : ℚ))
  else if r.val = 4 then
    (if c.val = 0 then (2 : ℚ) else
    if c.val = 1 then (2 : ℚ) else
    if c.val = 2 then (1 : ℚ) else
    if c.val = 3 then (0 : ℚ) else
    if c.val = 4 then (0 : ℚ) else
    if c.val = 5 then (0 : ℚ) else
    if c.val = 6 then (-4 : ℚ) else
    (-4 : ℚ))
  else if r.val = 5 then
    (if c.val = 0 then (0 : ℚ) else
    if c.val = 1 then (0 : ℚ) else
    if c.val = 2 then (0 : ℚ) else
    if c.val = 3 then (2 : ℚ) else
    if c.val = 4 then (2 : ℚ) else
    if c.val = 5 then (1 : ℚ) else
    if c.val = 6 then (-4 : ℚ) else
    (-4 : ℚ))
  else if r.val = 6 then
    (if c.val = 0 then (0 : ℚ) else
    if c.val = 1 then (2 : ℚ) else
    if c.val = 2 then (1 : ℚ) else
    if c.val = 3 then (0 : ℚ) else
    if c.val = 4 then (0 : ℚ) else
    if c.val = 5 then (0 : ℚ) else
    if c.val = 6 then (0 : ℚ) else
    (0 : ℚ))
  else
    (if c.val = 0 then (0 : ℚ) else
    if c.val = 1 then (0 : ℚ) else
    if c.val = 2 then (0 : ℚ) else
    if c.val = 3 then (0 : ℚ) else
    if c.val = 4 then (2 : ℚ) else
    if c.val = 5 then (1 : ℚ) else
    if c.val = 6 then (0 : ℚ) else
    (-4 : ℚ))

/-- Recorded right-hand side of the concrete elimination run. -/
def s2B0 : Fin 8 → ℚ := fun r =>
  if r.val = 0 then (0 : ℚ) else
  if r.val = 1 then (0 : ℚ) else
  if r.val = 2 then (2 : ℚ) else
  if r.val = 3 then (0 : ℚ) else
  if r.val = 4 then (2 : ℚ) else
  if r.val = 5 then (2 : ℚ) else
  if r.val = 6 then (0 : ℚ) else
  (2 : ℚ)

/-- Recorded matrix state of the concrete elimination run. -/
def s2A1 : Fin 8 → Fin 8 → ℚ := fun r c =>
  if r.val = 0 then
    (if c.val = 0 then (2 : ℚ) else
    if c.val = 1 then (0 : ℚ) else
    if c.val = 2 then (1 : ℚ) else
    if c.val = 3 then (0 : ℚ) else
    if c.val = 4 then (0 : ℚ) else
    if c.val = 5 then (0 : ℚ) else
    if c.val = 6 then (-4 : ℚ) else
    (0 : ℚ))
  else if r.val = 1 then
    (if c.val = 0 then (0 : ℚ) else
    if c.val = 1 then (0 : ℚ) else
    if c.val = 2 then (0 : ℚ) else
    if c.val = 3 then (0 : ℚ) else
    if c.val = 4 then (0 : ℚ) else
    if c.val = 5 then (1 : ℚ) else
    if c.val = 6 then (0 : ℚ) else
    (0 : ℚ))
  else if r.val = 2 then
    (if c.val = 0 then (0 : ℚ) else
    if c.val = 1 then (0 : ℚ) else
    if c.val = 2 then (1 : ℚ) else
    if c.val = 3 then (0 : ℚ) else
    if c.val = 4 then (0 : ℚ) else
    if c.val = 5 then (0 : ℚ) else
    if c.val = 6 then (0 : ℚ) else
    (0 : ℚ))
  else if r.val = 3 then
    (if c.val = 0 then (0 : ℚ) else
    if c.val = 1 then (0 : ℚ) else
    if c.val = 2 then (0 : ℚ) else
    if c.val = 3 then (2 : ℚ) else
    if c.val = 4 then (0 : ℚ) else
    if c.val = 5 then (1 : ℚ) else
    if c.val = 6 then (0 : ℚ) else
    (0 : ℚ))
  else if r.val = 4 then
    (if c.val = 0 then (0 : ℚ) else
    if c.val = 1 then (2 : ℚ) else
    if c.val = 2 then (0 : ℚ) else
    if c.val = 3 then (0 : ℚ) else
    if c.val = 4 then (0 : ℚ) else
    if c.val = 5 then (0 : ℚ) else
    if c.val = 6 then (0 : ℚ) else
    (-4 : ℚ))
  else if r.val = 5 then
    (if c.val = 0 then (0 : ℚ) else
    if c.val = 1 then (0 : ℚ) else
    if c.val = 2 then (0 : ℚ) else
    if c.val = 3 then (2 : ℚ) else
    if c.val = 4 then (2 : ℚ) else
    if c.val = 5 then (1 : ℚ) else
    if c.val = 6 then (-4 : ℚ) else
    (-4 : ℚ))
  else if r.val = 6 then
    (if c.val = 0 then (0 : ℚ) else
    if c.val = 1 then (2 : ℚ) else
    if c.val = 2 then (1 : ℚ) else
    if c.val = 3 then (0 : ℚ) else
    if c.val = 4 then (0 : ℚ) else
    if c.val = 5 then (0 : ℚ) else
    if c.val = 6 then (0 : ℚ) else
    (0 : ℚ))
  else
    (if c.val = 0 then (0 : ℚ) else
    if c.val = 1 then (0 : ℚ) else
    if c.val = 2 then (0 : ℚ) else
    if c.val = 3 then (0 : ℚ) else
    if c.val = 4 then (2 : ℚ) else
    if c.val = 5 then (1 : ℚ) else
    if c.val = 6 then (0 : ℚ) else
    (-4 : ℚ))

/-- Recorded right-hand side of the concrete elimination run. -/
def s2B1 : Fin 8 → ℚ := fun r =>
  if r.val = 0 then (2 : ℚ) else
  if r.val = 1 then (0 : ℚ) else
  if r.val = 2 then (0 : ℚ) else
  if r.val = 3 then (0 : ℚ) else
  if r.val = 4 then (0 : ℚ) else
  if r.val = 5 then (2 : ℚ) else
  if r.val = 6 then (0 : ℚ) else
  (2 : ℚ)

/-- Recorded matrix state of the concrete elimination run. -/
def s2A2 : Fin 8 → Fin 8 → ℚ := fun r c =>
  if r.val = 0 then
    (if c.val = 0 then (2 : ℚ) else
    if c.val = 1 then (0 : ℚ) else
    if c.val = 2 then (1 : ℚ) else
    if c.val = 3 then (0 : ℚ) else
    if c.val = 4 then (0 : ℚ) else
    if c.val = 5 then (0 : ℚ) else
    if c.val = 6 then (-4 : ℚ) else
    (0 : ℚ))
  else if r.val = 1 then
    (if c.val = 0 then (0 : ℚ) else
    if c.val = 1 then (2 : ℚ) else
    if c.val = 2 then (0 : ℚ) else
    if c.val = 3 then (0 : ℚ) else
    if c.val = 4 then (0 : ℚ) else
    if c.val = 5 then (0 : ℚ) else
    if c.val = 6 then (0 : ℚ) else
    (-4 : ℚ))
  else if r.val = 2 then
    (if c.val = 0 then (0 : ℚ) else
    if c.val = 1 then (0 : ℚ) else
    if c.val = 2 then (1 : ℚ) else
    if c.val = 3 then (0 : ℚ) else
    if c.val = 4 then (0 : ℚ) else
    if c.val = 5 then (0 : ℚ) else
    if c.val = 6 then (0 : ℚ) else
    (0 : ℚ))
  else if r.val = 3 then
    (if c.val = 0 then (0 : ℚ) else
    if c.val = 1 then (0 : ℚ) else
    if c.val = 2 then (0 : ℚ) else
    if c.val = 3 then (2 : ℚ) else
    if c.val = 4 then (0 : ℚ) else
    if c.val = 5 then (1 : ℚ) else
    if c.val = 6 then (0 : ℚ) else
    (0 : ℚ))
  else if r.val = 4 then
    (if c.val = 0 then (0 : ℚ) else
    if c.val = 1 then (0 : ℚ) else
    if c.val = 2 then (0 : ℚ) else
    if c.val = 3 then (0 : ℚ) else
    if c.val = 4 then (0 : ℚ) else
    if c.val = 5 then (1 : ℚ) else
    if c.val = 6 then (0 : ℚ) else
    (0 : ℚ))
  else if r.val = 5 then
    (if c.val = 0 then (0 : ℚ) else
    if c.val = 1 then (0 : ℚ) else
    if c.val = 2 then (0 : ℚ) else
    if c.val = 3 then (2 : ℚ) else
    if c.val = 4 then (2 : ℚ) else
    if c.val = 5 then (1 : ℚ) else
    if c.val = 6 then (-4 : ℚ) else
    (-4 : ℚ))
  else if r.val = 6 then
    (if c.val = 0 then (0 : ℚ) else
    if c.val = 1 then (0 : ℚ) else
    if c.val = 2 then (1 : ℚ) else
    if c.val = 3 then (0 : ℚ) else
    if c.val = 4 then (0 : ℚ) else
    if c.val = 5 then (0 : ℚ) else
    if c.val = 6 then (0 : ℚ) else
    (4 : ℚ))
  else
    (if c.val = 0 then (0 : ℚ) else
    if c.val = 1 then (0 : ℚ) else
    if c.val = 2 then (0 : ℚ) else
    if c.val = 3 then (0 : ℚ) else
    if c.val = 4 then (2 : ℚ) else
    if c.val = 5 then (1 : ℚ) else
    if c.val = 6 then (0 : ℚ) else
    (-4 : ℚ))

/-- Recorded right-hand side of the concrete elimination run. -/
def s2B2 : Fin 8 → ℚ := fun r =>
  if r.val = 0 then (2 : ℚ) else
  if r.val = 1 then (0 : ℚ) else
  if r.val = 2 then (0 : ℚ) else
  if r.val = 3 then (0 : ℚ) else
  if r.val = 4 then (0 : ℚ) else
  if r.val = 5 then (2 : ℚ) else
  if r.val = 6 then (0 : ℚ) else
  (2 : ℚ)

/-- Recorded matrix state of the concrete elimination run. -/
def s2A3 : Fin 8 → Fin 8 → ℚ := fun r c =>
  if r.val = 0 then
    (if c.val = 0 then (2 : ℚ) else
    if c.val = 1 then (0 : ℚ) else
    if c.val = 2 then (1 : ℚ) else
    if c.val = 3 then (0 : ℚ) else
    if c.val = 4 then (0 : ℚ) else
    if c.val = 5 then (0 : ℚ) else
    if c.val = 6 then (-4 : ℚ) else
    (0 : ℚ))
  else if r.val = 1 then
    (if c.val = 0 then (0 : ℚ) else
    if c.val = 1 then (2 : ℚ) else
    if c.val = 2 then (0 : ℚ) else
    if c.val = 3 then (0 : ℚ) else
    if c.val = 4 then (0 : ℚ) else
    if c.val = 5 then (0 : ℚ) else
    if c.val = 6 then (0 : ℚ) else
    (-4 : ℚ))
  else if r.val = 2 then
    (if c.val = 0 then (0 : ℚ) else
    if c.val = 1 then (0 : ℚ) else
    if c.val = 2 then (1 : ℚ) else
    if c.val = 3 then (0 : ℚ) else
    if c.val = 4 then (0 : ℚ) else
    if c.val = 5 then (0 : ℚ) else
    if c.val = 6 then (0 : ℚ) else
    (0 : ℚ))
  else if r.val = 3 then
    (if c.val = 0 then (0 : ℚ) else
    if c.val = 1 then (0 : ℚ) else
    if c.val = 2 then (0 : ℚ) else
    if c.val = 3 then (2 : ℚ) else
    if c.val = 4 then (0 : ℚ) else
    if c.val = 5 then (1 : ℚ) else
    if c.val = 6 then (0 : ℚ) else
    (0 : ℚ))
  else if r.val = 4 then
    (if c.val = 0 then (0 : ℚ) else
    if c.val = 1 then (0 : ℚ) else
    if c.val = 2 then (0 : ℚ) else
    if c.val = 3 then (0 : ℚ) else
    if c.val = 4 then (0 : ℚ) else
    if c.val = 5 then (1 : ℚ) else
    if c.val = 6 then (0 : ℚ) else
    (0 : ℚ))
  else if r.val = 5 then
    (if c.val = 0 then (0 : ℚ) else
    if c.val = 1 then (0 : ℚ) else
    if c.val = 2 then (0 : ℚ) else
    if c.val = 3 then (2 : ℚ) else
    if c.val = 4 then (2 : ℚ) else
    if c.val = 5 then (1 : ℚ) else
    if c.val = 6 then (-4 : ℚ) else
    (-4 : ℚ))
  else if r.val = 6 then
    (if c.val = 0 then (0 : ℚ) else
    if c.val = 1 then (0 : ℚ) else
    if c.val = 2 then (0 : ℚ) else
    if c.val = 3 then (0 : ℚ) else
    if c.val = 4 then (0 : ℚ) else
    if c.val = 5 then (0 : ℚ) else
    if c.val = 6 then (0 : ℚ) else
    (4 : ℚ))
  else
    (if c.val = 0 then (0 : ℚ) else
    if c.val = 1 then (0 : ℚ) else
    if c.val = 2 then (0 : ℚ) else
    if c.val = 3 then (0 : ℚ) else
    if c.val = 4 then (2 : ℚ) else
    if c.val = 5 then (1 : ℚ) else
    if c.val = 6 then (0 : ℚ) else
    (-4 : ℚ))

/-- Recorded right-hand side of the concrete elimination run. -/
def s2B3 : Fin 8 → ℚ := fun r =>
  if r.val = 0 then (2 : ℚ) else
  if r.val = 1 then (0 : ℚ) else
  if r.val = 2 then (0 : ℚ) else
  if r.val = 3 then (0 : ℚ) else
  if r.val = 4 then (0 : ℚ) else
  if r.val = 5 then (2 : ℚ) else
  if r.val = 6 then (0 : ℚ) else
  (2 : ℚ)

/-- Recorded matrix state of the concrete elimination run. -/
def s2A4 : Fin 8 → Fin 8 → ℚ := fun r c =>
  if r.val = 0 then
    (if c.val = 0 then (2 : ℚ) else
    if c.val = 1 then (0 : ℚ) else
    if c.val = 2 then (1 : ℚ) else
    if c.val = 3 then (0 : ℚ) else
    if c.val = 4 then (0 : ℚ) else
    if c.val = 5 then (0 : ℚ) else
    if c.val = 6 then (-4 : ℚ) else
    (0 : ℚ))
  else if r.val = 1 then
    (if c.val = 0 then (0 : ℚ) else
    if c.val = 1 then (2 : ℚ) else
    if c.val = 2 then (0 : ℚ) else
    if c.val = 3 then (0 : ℚ) else
    if c.val = 4 then (0 : ℚ) else
    if c.val = 5 then (0 : ℚ) else
    if c.val = 6 then (0 : ℚ) else
    (-4 : ℚ))
  else if r.val = 2 then
    (if c.val = 0 then (0 : ℚ) else
    if c.val = 1 then (0 : ℚ) else
    if c.val = 2 then (1 : ℚ) else
    if c.val = 3 then (0 : ℚ) else
    if c.val = 4 then (0 : ℚ) else
    if c.val = 5 then (0 : ℚ) else
    if c.val = 6 then (0 : ℚ) else
    (0 : ℚ))
  else if r.val = 3 then
    (if c.val = 0 then (0 : ℚ) else
    if c.val = 1 then (0 : ℚ) else
    if c.val = 2 then (0 : ℚ) else
    if c.val = 3 then (2 : ℚ) else
    if c.val = 4 then (0 : ℚ) else
    if c.val = 5 then (1 : ℚ) else
    if c.val = 6 then (0 : ℚ) else
    (0 : ℚ))
  else if r.val = 4 then
    (if c.val = 0 then (0 : ℚ) else
    if c.val = 1 then (0 : ℚ) else
    if c.val = 2 then (0 : ℚ) else
    if c.val = 3 then (0 : ℚ) else
    if c.val = 4 then (0 : ℚ) else
    if c.val = 5 then (1 : ℚ) else
    if c.val = 6 then (0 : ℚ) else
    (0 : ℚ))
  else if r.val = 5 then
    (if c.val = 0 then (0 : ℚ) else
    if c.val = 1 then (0 : ℚ) else
    if c.val = 2 then (0 : ℚ) else
    if c.val = 3 then (0 : ℚ) else
    if c.val = 4 then (2 : ℚ) else
    if c.val = 5 then (0 : ℚ) else
    if c.val = 6 then (-4 : ℚ) else
    (-4 : ℚ))
  else if r.val = 6 then
    (if c.val = 0 then (0 : ℚ) else
    if c.val = 1 then (0 : ℚ) else
    if c.val = 2 then (0 : ℚ) else
    if c.val = 3 then (0 : ℚ) else
    if c.val = 4 then (0 : ℚ) else
    if c.val = 5 then (0 : ℚ) else
    if c.val = 6 then (0 : ℚ) else
    (4 : ℚ))
  else
    (if c.val = 0 then (0 : ℚ) else
    if c.val = 1 then (0 : ℚ) else
    if c.val = 2 then (0 : ℚ) else
    if c.val = 3 then (0 : ℚ) else
    if c.val = 4 then (2 : ℚ) else
    if c.val = 5 then (1 : ℚ) else
    if c.val = 6 then (0 : ℚ) else
    (-4 : ℚ))

/-- Recorded right-hand side of the concrete elimination run. -/
def s2B4 : Fin 8 → ℚ := fun r =>
  if r.val = 0 then (2 : ℚ) else
  if r.val = 1 then (0 : ℚ) else
  if r.val = 2 then (0 : ℚ) else
  if r.val = 3 then (0 : ℚ) else
  if r.val = 4 then (0 : ℚ) else
  if r.val = 5 then (2 : ℚ) else
  if r.val = 6 then (0 : ℚ) else
  (2 : ℚ)

/-- Recorded matrix state of the concrete elimination run. -/
def s2A5 : Fin 8 → Fin 8 → ℚ := fun r c =>
  if r.val = 0 then
    (if c.val = 0 then (2 : ℚ) else
    if c.val = 1 then (0 : ℚ) else
    if c.val = 2 then (1 : ℚ) else
    if c.val = 3 then (0 : ℚ) else
    if c.val = 4 then (0 : ℚ) else
    if c.val = 5 then (0 : ℚ) else
    if c.val = 6 then (-4 : ℚ) else
    (0 : ℚ))
  else if r.val = 1 then
    (if c.val = 0 then (0 : ℚ) else
    if c.val = 1 then (2 : ℚ) else
    if c.val = 2 then (0 : ℚ) else
    if c.val = 3 then (0 : ℚ) else
    if c.val = 4 then (0 : ℚ) else
    if c.val = 5 then (0 : ℚ) else
    if c.val = 6 then (0 : ℚ) else
    (-4 : ℚ))
  else if r.val = 2 then
    (if c.val = 0 then (0 : ℚ) else
    if c.val = 1 then (0 : ℚ) else
    if c.val = 2 then (1 : ℚ) else
    if c.val = 3 then (0 : ℚ) else
    if c.val = 4 then (0 : ℚ) else
    if c.val = 5 then (0 : ℚ) else
    if c.val = 6 then (0 : ℚ) else
    (0 : ℚ))
  else if r.val = 3 then
    (if c.val = 0 then (0 : ℚ) else
    if c.val = 1 then (0 : ℚ) else
    if c.val = 2 then (0 : ℚ) else
    if c.val = 3 then (2 : ℚ) else
    if c.val = 4 then (0 : ℚ) else
    if c.val = 5 then (1 : ℚ) else
    if c.val = 6 then (0 : ℚ) else
    (0 : ℚ))
  else if r.val = 4 then
    (if c.val = 0 then (0 : ℚ) else
    if c.val = 1 then (0 : ℚ) else
    if c.val = 2 then (0 : ℚ) else
    if c.val = 3 then (0 : ℚ) else
    if c.val = 4 then (2 : ℚ) else
    if c.val = 5 then (0 : ℚ) else
    if c.val = 6 then (-4 : ℚ) else
    (-4 : ℚ))
  else if r.val = 5 then
    (if c.val = 0 then (0 : ℚ) else
    if c.val = 1 then (0 : ℚ) else
    if c.val = 2 then (0 : ℚ) else
    if c.val = 3 then (0 : ℚ) else
    if c.val = 4 then (0 : ℚ) else
    if c.val = 5 then (1 : ℚ) else
    if c.val = 6 then (0 : ℚ) else
    (0 : ℚ))
  else if r.val = 6 then
    (if c.val = 0 then (0 : ℚ) else
    if c.val = 1 then (0 : ℚ) else
    if c.val = 2 then (0 : ℚ) else
    if c.val = 3 then (0 : ℚ) else
    if c.val = 4 then (0 : ℚ) else
    if c.val = 5 then (0 : ℚ) else
    if c.val = 6 then (0 : ℚ) else
    (4 : ℚ))
  else
    (if c.val = 0 then (0 : ℚ) else
    if c.val = 1 then (0 : ℚ) else
    if c.val = 2 then (0 : ℚ) else
    if c.val = 3 then (0 : ℚ) else
    if c.val = 4 then (0 : ℚ) else
    if c.val = 5 then (1 : ℚ) else
    if c.val = 6 then (4 : ℚ) else
    (0 : ℚ))

/-- Recorded right-hand side of the concrete elimination run. -/
def s2B5 : Fin 8 → ℚ := fun r =>
  if r.val = 0 then (2 : ℚ) else
  if r.val = 1 then (0 : ℚ) else
  if r.val = 2 then (0 : ℚ) else
  if r.val = 3 then (0 : ℚ) else
  if r.val = 4 then (2 : ℚ) else
  if r.val = 5 then (0 : ℚ) else
  if r.val = 6 then (0 : ℚ) else
  (0 : ℚ)

/-- Recorded matrix state of the concrete elimination run. -/
def s2A6 : Fin 8 → Fin 8 → ℚ := fun r c =>
  if r.val = 0 then
    (if c.val = 0 then (2 : ℚ) else
    if c.val = 1 then (0 : ℚ) else
    if c.val = 2 then (1 : ℚ) else
    if c.val = 3 then (0 : ℚ) else
    if c.val = 4 then (0 : ℚ) else
    if c.val = 5 then (0 : ℚ) else
    if c.val = 6 then (-4 : ℚ) else
    (0 : ℚ))
  else if r.val = 1 then
    (if c.val = 0 then (0 : ℚ) else
    if c.val = 1 then (2 : ℚ) else
    if c.val = 2 then (0 : ℚ) else
    if c.val = 3 then (0 : ℚ) else
    if c.val = 4 then (0 : ℚ) else
    if c.val = 5 then (0 : ℚ) else
    if c.val = 6 then (0 : ℚ) else
    (-4 : ℚ))
  else if r.val = 2 then
    (if c.val = 0 then (0 : ℚ) else
    if c.val = 1 then (0 : ℚ) else
    if c.val = 2 then (1 : ℚ) else
    if c.val = 3 then (0 : ℚ) else
    if c.val = 4 then (0 : ℚ) else
    if c.val = 5 then (0 : ℚ) else
    if c.val = 6 then (0 : ℚ) else
    (0 : ℚ))
  else if r.val = 3 then
    (if c.val = 0 then (0 : ℚ) else
    if c.val = 1 then (0 : ℚ) else
    if c.val = 2 then (0 : ℚ) else
    if c.val = 3 then (2 : ℚ) else
    if c.val = 4 then (0 : ℚ) else
    if c.val = 5 then (1 : ℚ) else
    if c.val = 6 then (0 : ℚ) else
    (0 : ℚ))
  else if r.val = 4 then
    (if c.val = 0 then (0 : ℚ) else
    if c.val = 1 then (0 : ℚ) else
    if c.val = 2 then (0 : ℚ) else
    if c.val = 3 then (0 : ℚ) else
    if c.val = 4 then (2 : ℚ) else
    if c.val = 5 then (0 : ℚ) else
    if c.val = 6 then (-4 : ℚ) else
    (-4 : ℚ))
  else if r.val = 5 then
    (if c.val = 0 then (0 : ℚ) else
    if c.val = 1 then (0 : ℚ) else
    if c.val = 2 then (0 : ℚ) else
    if c.val = 3 then (0 : ℚ) else
    if c.val = 4 then (0 : ℚ) else
    if c.val = 5 then (1 : ℚ) else
    if c.val = 6 then (0 : ℚ) else
    (0 : ℚ))
  else if r.val = 6 then
    (if c.val = 0 then (0 : ℚ) else
    if c.val = 1 then (0 : ℚ) else
    if c.val = 2 then (0 : ℚ) else
    if c.val = 3 then (0 : ℚ) else
    if c.val = 4 then (0 : ℚ) else
    if c.val = 5 then (0 : ℚ) else
    if c.val = 6 then (0 : ℚ) else
    (4 : ℚ))
  else
    (if c.val = 0 then (0 : ℚ) else
    if c.val = 1 then (0 : ℚ) else
    if c.val = 2 then (0 : ℚ) else
    if c.val = 3 then (0 : ℚ) else
    if c.val = 4 then (0 : ℚ) else
    if c.val = 5 then (0 : ℚ) else
    if c.val = 6 then (4 : ℚ) else
    (0 : ℚ))

/-- Recorded right-hand side of the concrete elimination run. -/
def s2B6 : Fin 8 → ℚ := fun r =>
  if r.val = 0 then (2 : ℚ) else
  if r.val = 1 then (0 : ℚ) else
  if r.val = 2 then (0 : ℚ) else
  if r.val = 3 then (0 : ℚ) else
  if r.val = 4 then (2 : ℚ) else
  if r.val = 5 then (0 : ℚ) else
  if r.val = 6 then (0 : ℚ) else
  (0 : ℚ)

/-- Recorded matrix state of the concrete elimination run. -/
def s2A7 : Fin 8 → Fin 8 → ℚ := fun r c =>
  if r.val = 0 then
    (if c.val = 0 then (2 : ℚ) else
    if c.val = 1 then (0 : ℚ) else
    if c.val = 2 then (1 : ℚ) else
    if c.val = 3 then (0 : ℚ) else
    if c.val = 4 then (0 : ℚ) else
    if c.val = 5 then (0 : ℚ) else
    if c.val = 6 then (-4 : ℚ) else
    (0 : ℚ))
  else if r.val = 1 then
    (if c.val = 0 then (0 : ℚ) else
    if c.val = 1 then (2 : ℚ) else
    if c.val = 2 then (0 : ℚ) else
    if c.val = 3 then (0 : ℚ) else
    if c.val = 4 then (0 : ℚ) else
    if c.val = 5 then (0 : ℚ) else
    if c.val = 6 then (0 : ℚ) else
    (-4 : ℚ))
  else if r.val = 2 then
    (if c.val = 0 then (0 : ℚ) else
    if c.val = 1 then (0 : ℚ) else
    if c.val = 2 then (1 : ℚ) else
    if c.val = 3 then (0 : ℚ) else
    if c.val = 4 then (0 : ℚ) else
    if c.val = 5 then (0 : ℚ) else
    if c.val = 6 then (0 : ℚ) else
    (0 : ℚ))
  else if r.val = 3 then
    (if c.val = 0 then (0 : ℚ) else
    if c.val = 1 then (0 : ℚ) else
    if c.val = 2 then (0 : ℚ) else
    if c.val = 3 then (2 : ℚ) else
    if c.val = 4 then (0 : ℚ) else
    if c.val = 5 then (1 : ℚ) else
    if c.val = 6 then (0 : ℚ) else
    (0 : ℚ))
  else if r.val = 4 then
    (if c.val = 0 then (0 : ℚ) else
    if c.val = 1 then (0 : ℚ) else
    if c.val = 2 then (0 : ℚ) else
    if c.val = 3 then (0 : ℚ) else
    if c.val = 4 then (2 : ℚ) else
    if c.val = 5 then (0 : ℚ) else
    if c.val = 6 then (-4 : ℚ) else
    (-4 : ℚ))
  else if r.val = 5 then
    (if c.val = 0 then (0 : ℚ) else
    if c.val = 1 then (0 : ℚ) else
    if c.val = 2 then (0 : ℚ) else
    if c.val = 3 then (0 : ℚ) else
    if c.val = 4 then (0 : ℚ) else
    if c.val = 5 then (1 : ℚ) else
    if c.val = 6 then (0 : ℚ) else
    (0 : ℚ))
  else if r.val = 6 then
    (if c.val = 0 then (0 : ℚ) else
    if c.val = 1 then (0 : ℚ) else
    if c.val = 2 then (0 : ℚ) else
    if c.val = 3 then (0 : ℚ) else
    if c.val = 4 then (0 : ℚ) else
    if c.val = 5 then (0 : ℚ) else
    if c.val = 6 then (4 : ℚ) else
    (0 : ℚ))
  else
    (if c.val = 0 then (0 : ℚ) else
    if c.val = 1 then (0 : ℚ) else
    if c.val = 2 then (0 : ℚ) else
    if c.val = 3 then (0 : ℚ) else
    if c.val = 4 then (0 : ℚ) else
    if c.val = 5 then (0 : ℚ) else
    if c.val = 6 then (0 : ℚ) else
    (4 : ℚ))

/-- Recorded right-hand side of the concrete elimination run. -/
def s2B7 : Fin 8 → ℚ := fun r =>
  if r.val = 0 then (2 : ℚ) else
  if r.val = 1 then (0 : ℚ) else
  if r.val = 2 then (0 : ℚ) else
  if r.val = 3 then (0 : ℚ) else
  if r.val = 4 then (2 : ℚ) else
  if r.val = 5 then (0 : ℚ) else
  if r.val = 6 then (0 : ℚ) else
  (0 : ℚ)

/-- Recorded matrix state of the concrete elimination run. -/
def s2A8 : Fin 8 → Fin 8 → ℚ := fun r c =>
  if r.val = 0 then
    (if c.val = 0 then (2 : ℚ) else
    if c.val = 1 then (0 : ℚ) else
    if c.val = 2 then (1 : ℚ) else
    if c.val = 3 then (0 : ℚ) else
    if c.val = 4 then (0 : ℚ) else
    if c.val = 5 then (0 : ℚ) else
    if c.val = 6 then (-4 : ℚ) else
    (0 : ℚ))
  else if r.val = 1 then
    (if c.val = 0 then (0 : ℚ) else
    if c.val = 1 then (2 : ℚ) else
    if c.val = 2 then (0 : ℚ) else
    if c.val = 3 then (0 : ℚ) else
    if c.val = 4 then (0 : ℚ) else
    if c.val = 5 then (0 : ℚ) else
    if c.val = 6 then (0 : ℚ) else
    (-4 : ℚ))
  else if r.val = 2 then
    (if c.val = 0 then (0 : ℚ) else
    if c.val = 1 then (0 : ℚ) else
    if c.val = 2 then (1 : ℚ) else
    if c.val = 3 then (0 : ℚ) else
    if c.val = 4 then (0 : ℚ) else
    if c.val = 5 then (0 : ℚ) else
    if c.val = 6 then (0 : ℚ) else
    (0 : ℚ))
  else if r.val = 3 then
    (if c.val = 0 then (0 : ℚ) else
    if c.val = 1 then (0 : ℚ) else
    if c.val = 2 then (0 : ℚ) else
    if c.val = 3 then (2 : ℚ) else
    if c.val = 4 then (0 : ℚ) else
    if c.val = 5 then (1 : ℚ) else
    if c.val = 6 then (0 : ℚ) else
    (0 : ℚ))
  else if r.val = 4 then
    (if c.val = 0 then (0 : ℚ) else
    if c.val = 1 then (0 : ℚ) else
    if c.val = 2 then (0 : ℚ) else
    if c.val = 3 then (0 : ℚ) else
    if c.val = 4 then (2 : ℚ) else
    if c.val = 5 then (0 : ℚ) else
    if c.val = 6 then (-4 : ℚ) else
    (-4 : ℚ))
  else if r.val = 5 then
    (if c.val = 0 then (0 : ℚ) else
    if c.val = 1 then (0 : ℚ) else
    if c.val = 2 then (0 : ℚ) else
    if c.val = 3 then (0 : ℚ) else
    if c.val = 4 then (0 : ℚ) else
    if c.val = 5 then (1 : ℚ) else
    if c.val = 6 then (0 : ℚ) else
    (0 : ℚ))
  else if r.val = 6 then
    (if c.val = 0 then (0 : ℚ) else
    if c.val = 1 then (0 : ℚ) else
    if c.val = 2 then (0 : ℚ) else
    if c.val = 3 then (0 : ℚ) else
    if c.val = 4 then (0 : ℚ) else
    if c.val = 5 then (0 : ℚ) else
    if c.val = 6 then (4 : ℚ) else
    (0 : ℚ))
  else
    (if c.val = 0 then (0 : ℚ) else
    if c.val = 1 then (0 : ℚ) else
    if c.val = 2 then (0 : ℚ) else
    if c.val = 3 then (0 : ℚ) else
    if c.val = 4 then (0 : ℚ) else
    if c.val = 5 then (0 : ℚ) else
    if c.val = 6 then (0 : ℚ) else
    (4 : ℚ))

/-- Recorded right-hand side of the concrete elimination run. -/
def s2B8 : Fin 8 → ℚ := fun r =>
  if r.val = 0 then (2 : ℚ) else
  if r.val = 1 then (0 : ℚ) else
  if r.val = 2 then (0 : ℚ) else
  if r.val = 3 then (0 : ℚ) else
  if r.val = 4 then (2 : ℚ) else
  if r.val = 5 then (0 : ℚ) else
  if r.val = 6 then (0 : ℚ) else
  (0 : ℚ)

/-! Extensionality and evaluation helpers. -/

theorem LinSys.ext {n : ℕ} (s t : LinSys n) (ha : s.a = t.a) (hb : s.b = t.b) : s = t := by
  cases s; cases t; cases ha; cases hb; rfl

theorem finRange_eight :
    List.finRange 8 = [⟨0, by omega⟩, ⟨1, by omega⟩, ⟨2, by omega⟩, ⟨3, by omega⟩,
      ⟨4, by omega⟩, ⟨5, by omega⟩, ⟨6, by omega⟩, ⟨7, by omega⟩] := by decide

theorem funext_ofFn {α : Type} (f g : Fin 8 → α) (h : List.ofFn f = List.ofFn g) : f = g :=
  List.ofFn_injective h

theorem funext2_ofFn {α : Type} (f g : Fin 8 → Fin 8 → α)
    (h : List.ofFn (fun r => List.ofFn (f r)) = List.ofFn (fun r => List.ofFn (g r))) :
    f = g := by
  have h1 := List.ofFn_injective h
  funext r c
  have h2 : List.ofFn (f r) = List.ofFn (g r) := congrFun h1 r
  exact congrFun (List.ofFn_injective h2) c

theorem fin8_lit0 : (0 : Fin 8) = ⟨0, by omega⟩ := rfl
theorem fin8_lit1 : (1 : Fin 8) = ⟨1, by omega⟩ := rfl
theorem fin8_lit2 : (2 : Fin 8) = ⟨2, by omega⟩ := rfl
theorem fin8_lit3 : (3 : Fin 8) = ⟨3, by omega⟩ := rfl
theorem fin8_lit4 : (4 : Fin 8) = ⟨4, by omega⟩ := rfl
theorem fin8_lit5 : (5 : Fin 8) = ⟨5, by omega⟩ := rfl
theorem fin8_lit6 : (6 : Fin 8) = ⟨6, by omega⟩ := rfl
theorem fin8_lit7 : (7 : Fin 8) = ⟨7, by omega⟩ := rfl

theorem fin8_val0 : ((0 : Fin 8) : ℕ) = 0 := rfl
theorem fin8_val1 : ((1 : Fin 8) : ℕ) = 1 := rfl
theorem fin8_val2 : ((2 : Fin 8) : ℕ) = 2 := rfl
theorem fin8_val3 : ((3 : Fin 8) : ℕ) = 3 := rfl
theorem fin8_val4 : ((4 : Fin 8) : ℕ) = 4 := rfl
theorem fin8_val5 : ((5 : Fin 8) : ℕ) = 5 := rfl
theorem fin8_val6 : ((6 : Fin 8) : ℕ) = 6 := rfl
theorem fin8_val7 : ((7 : Fin 8) : ℕ) = 7 := rfl

/-! Correctness of the Gaussian elimination with partial pivoting: row swaps and
row subtractions preserve the solution set, the swept columns stay cleared, and
back-substitution solves the resulting triangular system. -/

theorem swapRows_a (s : LinSys n) (i p j : Fin n) :
    (swapRows s i p).a j = s.a (Equiv.swap i p j) := by
  simp only [swapRows, Equiv.swap_apply_def]
  split_ifs <;> rfl

theorem swapRows_b (s : LinSys n) (i p j : Fin n) :
    (swapRows s i p).b j = s.b (Equiv.swap i p j) := by
  simp only [swapRows, Equiv.swap_apply_def]
  split_ifs <;> rfl

theorem sol_swapRows (s : LinSys n) (i p : Fin n) (x : Fin n → ℚ) :
    Sol (swapRows s i p) x ↔ Sol s x := by
  constructor
  · intro h r
    have hr := h (Equiv.swap i p r)
    rwa [swapRows_a, swapRows_b, Equiv.swap_apply_self] at hr
  · intro h r
    rw [swapRows_a, swapRows_b]
    exact h _

theorem pivotFold_spec (s : LinSys n) (i : Fin n) (l : List (Fin n)) (p : Fin n) (hp : i ≤ p) :
    i ≤ pivotFold s i p l ∧ |s.a p i| ≤ |s.a (pivotFold s i p l) i| ∧
      ∀ j ∈ l, i < j → |s.a j i| ≤ |s.a (pivotFold s i p l) i| := by
  induction l generalizing p with
  | nil => exact ⟨hp, le_rfl, by simp⟩
  | cons hd tl ih =>
    by_cases hc : i < hd ∧ |s.a p i| < |s.a hd i|
    · have h1 : pivotFold s i p (hd :: tl) = pivotFold s i hd tl := by
        simp [pivotFold, List.foldl, hc]
      obtain ⟨g1, g2, g3⟩ := ih hd (le_of_lt hc.1)
      refine ⟨by rwa [h1], ?_, ?_⟩
      · rw [h1]; exact le_trans (le_of_lt hc.2) g2
      · intro j hj hij
        rcases List.mem_cons.mp hj with rfl | hj2
        · rw [h1]; exact g2
        · rw [h1]; exact g3 j hj2 hij
    · have h1 : pivotFold s i p (hd :: tl) = pivotFold s i p tl := by
        simp [pivotFold, List.foldl, hc]
      obtain ⟨g1, g2, g3⟩ := ih p hp
      refine ⟨by rwa [h1], by rwa [h1], ?_⟩
      intro j hj hij
      rcases List.mem_cons.mp hj with rfl | hj2
      · rw [h1]
        have hle : ¬ |s.a p i| < |s.a j i| := fun hlt => hc ⟨hij, hlt⟩
        exact le_trans (not_lt.mp hle) g2
      · rw [h1]; exact g3 j hj2 hij

theorem pivotSearch_ge (s : LinSys n) (i : Fin n) : i ≤ pivotSearch s i :=
  (pivotFold_spec s i (List.finRange n) i le_rfl).1

theorem pivotSearch_max (s : LinSys n) (i : Fin n) :
    ∀ j, i ≤ j → |s.a j i| ≤ |s.a (pivotSearch s i) i| := by
  intro j hj
  rcases eq_or_lt_of_le hj with rfl | hlt
  · exact (pivotFold_spec s i (List.finRange n) i le_rfl).2.1
  · exact (pivotFold_spec s i (List.finRange n) i le_rfl).2.2 j (List.mem_finRange j) hlt

theorem isElim_swapRows (s : LinSys n) (i p : Fin n) (hip : i ≤ p) (h : IsElim (i : ℕ) s) :
    IsElim (i : ℕ) (swapRows s i p) := by
  intro j k hk hkj
  have hfun := congrFun (swapRows_a s i p j) k
  rw [hfun, Equiv.swap_apply_def]
  split_ifs with h1 h2
  · exact h p k hk (lt_of_lt_of_le (Fin.lt_def.mpr hk) hip)
  · exact h i k hk (Fin.lt_def.mpr hk)
  · exact h j k hk hkj

theorem eliminate_a_lower (s : LinSys n) (i j : Fin n) (hj : ¬ i < j) (k : Fin n) :
    (eliminate s i).a j k = s.a j k := by
  simp [eliminate, hj]

theorem eliminate_b_lower (s : LinSys n) (i j : Fin n) (hj : ¬ i < j) :
    (eliminate s i).b j = s.b j := by
  simp [eliminate, hj]

theorem eliminate_a_upper (s : LinSys n) (i : Fin n) (h : IsElim (i : ℕ) s) (j k : Fin n)
    (hj : i < j) : (eliminate s i).a j k = s.a j k - s.a j i / s.a i i * s.a i k := by
  by_cases hk : i ≤ k
  · simp [eliminate, hj, hk]
  · push_neg at hk
    have h0 : s.a i k = 0 := h i k (Fin.lt_def.mp hk) hk
    simp [eliminate, hj, not_le.mpr hk, h0]

theorem eliminate_b_upper (s : LinSys n) (i j : Fin n) (hj : i < j) :
    (eliminate s i).b j = s.b j - s.a j i / s.a i i * s.b i := by
  simp [eliminate, hj]

theorem isElim_eliminate (s : LinSys n) (i : Fin n) (h : IsElim (i : ℕ) s)
    (hmax : ∀ j, i ≤ j → |s.a j i| ≤ |s.a i i|) :
    IsElim ((i : ℕ) + 1) (eliminate s i) := by
  intro j k hk hkj
  by_cases hj : i < j
  · rw [eliminate_a_upper s i h j k hj]
    rcases Nat.lt_succ_iff_lt_or_eq.mp hk with hk2 | hk2
    · have hki : k < i := Fin.lt_def.mpr hk2
      rw [h j k hk2 hkj, h i k hk2 hki, mul_zero, sub_zero]
    · have hkeq : k = i := Fin.ext hk2
      rw [hkeq]
      by_cases hz : s.a i i = 0
      · have habs := hmax j (le_of_lt hj)
        rw [hz, abs_zero] at habs
        have hji : s.a j i = 0 := abs_eq_zero.mp (le_antisymm habs (abs_nonneg _))
        rw [hji, hz]
        norm_num
      · rw [div_mul_cancel₀ _ hz, sub_self]
  · rw [eliminate_a_lower s i j hj]
    have hji : (j : ℕ) ≤ (i : ℕ) := Fin.le_def.mp (not_lt.mp hj)
    exact h j k (lt_of_lt_of_le (Fin.lt_def.mp hkj) hji) hkj

theorem sol_eliminate (s : LinSys n) (i : Fin n) (h : IsElim (i : ℕ) s) (x : Fin n → ℚ) :
    Sol (eliminate s i) x ↔ Sol s x := by
  have hrow : ∀ j, i < j → ∀ k, (eliminate s i).a j k * x k
      = s.a j k * x k - s.a j i / s.a i i * (s.a i k * x k) := by
    intro j hj k
    rw [eliminate_a_upper s i h j k hj]; ring
  constructor
  · intro hs r
    by_cases hr : i < r
    · have hi := hs i
      simp only [eliminate_a_lower s i i (lt_irrefl i), eliminate_b_lower s i i (lt_irrefl i)]
        at hi
      have hr2 := hs r
      simp only [hrow r hr, eliminate_b_upper s i r hr] at hr2
      rw [Finset.sum_sub_distrib, ← Finset.mul_sum, hi] at hr2
      linarith [hr2]
    · have hr2 := hs r
      simp only [eliminate_a_lower s i r hr, eliminate_b_lower s i r hr] at hr2
      exact hr2
  · intro hs r
    by_cases hr : i < r
    · simp only [hrow r hr, eliminate_b_upper s i r hr]
      rw [Finset.sum_sub_distrib, ← Finset.mul_sum, hs r, hs i]
    · simp only [eliminate_a_lower s i r hr, eliminate_b_lower s i r hr]
      exact hs r

theorem isElim_elimStep (s : LinSys n) (i : Fin n) (h : IsElim (i : ℕ) s) :
    IsElim ((i : ℕ) + 1) (elimStep s i) := by
  have hp := pivotSearch_ge s i
  have hsw := isElim_swapRows s i (pivotSearch s i) hp h
  apply isElim_eliminate _ _ hsw
  intro j hj
  have h1 := congrFun (swapRows_a s i (pivotSearch s i) j) i
  have h2 := congrFun (swapRows_a s i (pivotSearch s i) i) i
  rw [h1, h2, Equiv.swap_apply_left]
  apply pivotSearch_max
  rw [Equiv.swap_apply_def]
  split_ifs with hc1 hc2
  · exact hp
  · exact le_rfl
  · exact hj

theorem sol_elimStep (s : LinSys n) (i : Fin n) (h : IsElim (i : ℕ) s) (x : Fin n → ℚ) :
    Sol (elimStep s i) x ↔ Sol s x := by
  unfold elimStep
  rw [sol_eliminate _ _ (isElim_swapRows s i _ (pivotSearch_ge s i) h)]
  exact sol_swapRows s i _ x

theorem isElim_elimUpTo (s : LinSys n) : ∀ m, m ≤ n → IsElim m (elimUpTo s m) := by
  intro m
  induction m with
  | zero => intro _ j k hk _; exact absurd hk (Nat.not_lt_zero _)
  | succ m ih =>
    intro hm
    have hmn : m < n := hm
    show IsElim (m + 1) (elimStepN (elimUpTo s m) m)
    rw [elimStepN, dif_pos hmn]
    exact isElim_elimStep (elimUpTo s m) ⟨m, hmn⟩ (ih (Nat.le_of_succ_le hm))

theorem sol_elimUpTo (s : LinSys n) (x : Fin n → ℚ) :
    ∀ m, m ≤ n → (Sol (elimUpTo s m) x ↔ Sol s x) := by
  intro m
  induction m with
  | zero => intro _; exact Iff.rfl
  | succ m ih =>
    intro hm
    have hmn : m < n := hm
    have hIs := isElim_elimUpTo s m (Nat.le_of_succ_le hm)
    have hstep : Sol (elimUpTo s (m + 1)) x ↔ Sol (elimUpTo s m) x := by
      show Sol (elimStepN (elimUpTo s m) m) x ↔ _
      rw [elimStepN, dif_pos hmn]
      exact sol_elimStep (elimUpTo s m) ⟨m, hmn⟩ hIs x
    exact hstep.trans (ih (Nat.le_of_succ_le hm))

theorem isElim_elimAll (s : LinSys n) : IsElim n (elimAll s) :=
  isElim_elimUpTo s n le_rfl

theorem sol_elimAll (s : LinSys n) (x : Fin n → ℚ) : Sol (elimAll s) x ↔ Sol s x :=
  sol_elimUpTo s x n le_rfl

theorem backSubUpTo_spec (s : LinSys n) :
    ∀ m, m ≤ n → ∀ i : Fin n, n - m ≤ (i : ℕ) →
      backSubUpTo s m i =
        (s.b i - ∑ j ∈ Finset.univ.filter (fun j => i < j), s.a i j * backSubUpTo s m j) /
          s.a i i := by
  intro m
  induction m with
  | zero => intro _ i hi; exact absurd hi (by have := i.isLt; omega)
  | succ m ih =>
    intro hm i hi
    have hmn : m ≤ n := Nat.le_of_succ_le hm
    have hlt : n - 1 - m < n := by omega
    have heq : backSubUpTo s (m + 1) = backSubStep s (backSubUpTo s m) ⟨n - 1 - m, hlt⟩ := by
      rw [show backSubUpTo s (m + 1)
            = (if h : n - 1 - m < n then
                backSubStep s (backSubUpTo s m) ⟨n - 1 - m, h⟩
              else backSubUpTo s m) from rfl,
          dif_pos hlt]
    rw [heq]
    simp only [backSubStep]
    by_cases hieq : i = ⟨n - 1 - m, hlt⟩
    · rw [hieq, Function.update_same]
      congr 2
      apply Finset.sum_congr rfl
      intro j hj
      have hji : (⟨n - 1 - m, hlt⟩ : Fin n) < j := (Finset.mem_filter.mp hj).2
      rw [Function.update_noteq (ne_of_gt hji)]
    · have hine : (i : ℕ) ≠ n - 1 - m := fun hc => hieq (Fin.ext hc)
      have hge : n - m ≤ (i : ℕ) := by omega
      rw [Function.update_noteq hieq, ih hmn i hge]
      congr 2
      apply Finset.sum_congr rfl
      intro j hj
      have hji : i < j := (Finset.mem_filter.mp hj).2
      have hjne : j ≠ ⟨n - 1 - m, hlt⟩ := by
        intro hc
        have hjv : (j : ℕ) = n - 1 - m := by rw [hc]
        have hiv : (i : ℕ) < (j : ℕ) := Fin.lt_def.mp hji
        omega
      rw [Function.update_noteq hjne]

theorem backSub_spec (s : LinSys n) (i : Fin n) :
    backSub s i =
      (s.b i - ∑ j ∈ Finset.univ.filter (fun j => i < j), s.a i j * backSub s j) / s.a i i :=
  backSubUpTo_spec s n le_rfl i (by omega)

theorem sol_backSub (s : LinSys n) (htri : IsElim n s) (hd : ∀ i, s.a i i ≠ 0) :
    Sol s (backSub s) := by
  intro r
  have hzero : ∀ k ∈ Finset.univ.filter (fun k => k < r), s.a r k * backSub s k = 0 := by
    intro k hk
    rw [htri r k k.isLt (Finset.mem_filter.mp hk).2, zero_mul]
  have hsplit := Finset.sum_filter_add_sum_filter_not Finset.univ (fun k => k < r)
      (fun k => s.a r k * backSub s k)
  have hnot : Finset.univ.filter (fun k => ¬ k < r)
      = insert r (Finset.univ.filter (fun k => r < k)) := by
    ext k
    simp only [Finset.mem_filter, Finset.mem_insert, Finset.mem_univ, true_and, not_lt]
    constructor
    · intro h
      rcases eq_or_lt_of_le h with h | h
      · exact Or.inl h.symm
      · exact Or.inr h
    · intro h
      rcases h with rfl | h
      · exact le_rfl
      · exact le_of_lt h
  have hns : r ∉ Finset.univ.filter (fun k => r < k) := by simp
  rw [Finset.sum_eq_zero hzero, zero_add] at hsplit
  rw [← hsplit, hnot, Finset.sum_insert hns, backSub_spec s r, mul_comm,
      div_mul_cancel₀ _ (hd r), sub_add_cancel]

/-- Partial-pivoted Gaussian elimination followed by back-substitution solves the
original system, provided every final pivot is nonzero. -/
theorem gauss_solves (s : LinSys n) (hd : ∀ i, (elimAll s).a i i ≠ 0) :
    Sol s (backSub (elimAll s)) :=
  (sol_elimAll s _).mp (sol_backSub (elimAll s) (isElim_elimAll s) hd)

/-! Evaluation of the concrete elimination run, one outer-loop step at a time. -/

theorem s2Sys_eval : s2Sys = ⟨s2A0, s2B0⟩ := by
  refine LinSys.ext _ _ (funext2_ofFn _ _ ?_) (funext_ofFn _ _ ?_) <;>
    norm_num [List.ofFn_succ, s2Sys, homographySystem, rectCorners, s2A0, s2B0,
      Fin.ext_iff, Matrix.cons_val_zero, Matrix.cons_val_one, Matrix.head_cons,
      Matrix.cons_val_succ]

theorem s2_piv0 :
    pivotSearch (⟨s2A0, s2B0⟩ : LinSys 8) ⟨0, by omega⟩ = ⟨2, by omega⟩ := by
  norm_num [pivotSearch, pivotFold, finRange_eight, List.foldl, s2A0, Fin.lt_def,
    Fin.ext_iff]

set_option maxHeartbeats 1000000 in
theorem s2_elim1 : elimUpTo s2Sys 1 = ⟨s2A1, s2B1⟩ := by
  have h : elimUpTo s2Sys 1 = elimStep (⟨s2A0, s2B0⟩ : LinSys 8) ⟨0, by omega⟩ := by
    rw [show elimUpTo s2Sys 1 = elimStepN (elimUpTo s2Sys 0) 0 from rfl,
        s2Sys_eval]
    rfl
  rw [h]
  simp only [elimStep, s2_piv0]
  refine LinSys.ext _ _ (funext2_ofFn _ _ ?_) (funext_ofFn _ _ ?_) <;>
    norm_num [List.ofFn_succ, eliminate, swapRows, s2A0, s2B0, s2A1, s2B1,
      Fin.lt_def, Fin.le_def, Fin.ext_iff]

theorem s2_piv1 :
    pivotSearch (⟨s2A1, s2B1⟩ : LinSys 8) ⟨1, by omega⟩ = ⟨4, by omega⟩ := by
  norm_num [pivotSearch, pivotFold, finRange_eight, List.foldl, s2A1, Fin.lt_def,
    Fin.ext_iff]

set_option maxHeartbeats 1000000 in
theorem s2_elim2 : elimUpTo s2Sys 2 = ⟨s2A2, s2B2⟩ := by
  have h : elimUpTo s2Sys 2 = elimStep (⟨s2A1, s2B1⟩ : LinSys 8) ⟨1, by omega⟩ := by
    rw [show elimUpTo s2Sys 2 = elimStepN (elimUpTo s2Sys 1) 1 from rfl,
        s2_elim1]
    rfl
  rw [h]
  simp only [elimStep, s2_piv1]
  refine LinSys.ext _ _ (funext2_ofFn _ _ ?_) (funext_ofFn _ _ ?_) <;>
    norm_num [List.ofFn_succ, eliminate, swapRows, s2A1, s2B1, s2A2, s2B2,
      Fin.lt_def, Fin.le_def, Fin.ext_iff]

theorem s2_piv2 :
    pivotSearch (⟨s2A2, s2B2⟩ : LinSys 8) ⟨2, by omega⟩ = ⟨2, by omega⟩ := by
  norm_num [pivotSearch, pivotFold, finRange_eight, List.foldl, s2A2, Fin.lt_def,
    Fin.ext_iff]

set_option maxHeartbeats 1000000 in
theorem s2_elim3 : elimUpTo s2Sys 3 = ⟨s2A3, s2B3⟩ := by
  have h : elimUpTo s2Sys 3 = elimStep (⟨s2A2, s2B2⟩ : LinSys 8) ⟨2, by omega⟩ := by
    rw [show elimUpTo s2Sys 3 = elimStepN (elimUpTo s2Sys 2) 2 from rfl,
        s2_elim2]
    rfl
  rw [h]
  simp only [elimStep, s2_piv2]
  refine LinSys.ext _ _ (funext2_ofFn _ _ ?_) (funext_ofFn _ _ ?_) <;>
    norm_num [List.ofFn_succ, eliminate, swapRows, s2A2, s2B2, s2A3, s2B3,
      Fin.lt_def, Fin.le_def, Fin.ext_iff]

theorem s2_piv3 :
    pivotSearch (⟨s2A3, s2B3⟩ : LinSys 8) ⟨3, by omega⟩ = ⟨3, by omega⟩ := by
  norm_num [pivotSearch, pivotFold, finRange_eight, List.foldl, s2A3, Fin.lt_def,
    Fin.ext_iff]

set_option maxHeartbeats 1000000 in
theorem s2_elim4 : elimUpTo s2Sys 4 = ⟨s2A4, s2B4⟩ := by
  have h : elimUpTo s2Sys 4 = elimStep (⟨s2A3, s2B3⟩ : LinSys 8) ⟨3, by omega⟩ := by
    rw [show elimUpTo s2Sys 4 = elimStepN (elimUpTo s2Sys 3) 3 from rfl,
        s2_elim3]
    rfl
  rw [h]
  simp only [elimStep, s2_piv3]
  refine LinSys.ext _ _ (funext2_ofFn _ _ ?_) (funext_ofFn _ _ ?_) <;>
    norm_num [List.ofFn_succ, eliminate, swapRows, s2A3, s2B3, s2A4, s2B4,
      Fin.lt_def, Fin.le_def, Fin.ext_iff]

theorem s2_piv4 :
    pivotSearch (⟨s2A4, s2B4⟩ : LinSys 8) ⟨4, by omega⟩ = ⟨5, by omega⟩ := by
  norm_num [pivotSearch, pivotFold, finRange_eight, List.foldl, s2A4, Fin.lt_def,
    Fin.ext_iff]

set_option maxHeartbeats 1000000 in
theorem s2_elim5 : elimUpTo s2Sys 5 = ⟨s2A5, s2B5⟩ := by
  have h : elimUpTo s2Sys 5 = elimStep (⟨s2A4, s2B4⟩ : LinSys 8) ⟨4, by omega⟩ := by
    rw [show elimUpTo s2Sys 5 = elimStepN (elimUpTo s2Sys 4) 4 from rfl,
        s2_elim4]
    rfl
  rw [h]
  simp only [elimStep, s2_piv4]
  refine LinSys.ext _ _ (funext2_ofFn _ _ ?_) (funext_ofFn _ _ ?_) <;>
    norm_num [List.ofFn_succ, eliminate, swapRows, s2A4, s2B4, s2A5, s2B5,
      Fin.lt_def, Fin.le_def, Fin.ext_iff]

theorem s2_piv5 :
    pivotSearch (⟨s2A5, s2B5⟩ : LinSys 8) ⟨5, by omega⟩ = ⟨5, by omega⟩ := by
  norm_num [pivotSearch, pivotFold, finRange_eight, List.foldl, s2A5, Fin.lt_def,
    Fin.ext_iff]

set_option maxHeartbeats 1000000 in
theorem s2_elim6 : elimUpTo s2Sys 6 = ⟨s2A6, s2B6⟩ := by
  have h : elimUpTo s2Sys 6 = elimStep (⟨s2A5, s2B5⟩ : LinSys 8) ⟨5, by omega⟩ := by
    rw [show elimUpTo s2Sys 6 = elimStepN (elimUpTo s2Sys 5) 5 from rfl,
        s2_elim5]
    rfl
  rw [h]
  simp only [elimStep, s2_piv5]
  refine LinSys.ext _ _ (funext2_ofFn _ _ ?_) (funext_ofFn _ _ ?_) <;>
    norm_num [List.ofFn_succ, eliminate, swapRows, s2A5, s2B5, s2A6, s2B6,
      Fin.lt_def, Fin.le_def, Fin.ext_iff]

theorem s2_piv6 :
    pivotSearch (⟨s2A6, s2B6⟩ : LinSys 8) ⟨6, by omega⟩ = ⟨7, by omega⟩ := by
  norm_num [pivotSearch, pivotFold, finRange_eight, List.foldl, s2A6, Fin.lt_def,
    Fin.ext_iff]

set_option maxHeartbeats 1000000 in
theorem s2_elim7 : elimUpTo s2Sys 7 = ⟨s2A7, s2B7⟩ := by
  have h : elimUpTo s2Sys 7 = elimStep (⟨s2A6, s2B6⟩ : LinSys 8) ⟨6, by omega⟩ := by
    rw [show elimUpTo s2Sys 7 = elimStepN (elimUpTo s2Sys 6) 6 from rfl,
        s2_elim6]
    rfl
  rw [h]
  simp only [elimStep, s2_piv6]
  refine LinSys.ext _ _ (funext2_ofFn _ _ ?_) (funext_ofFn _ _ ?_) <;>
    norm_num [List.ofFn_succ, eliminate, swapRows, s2A6, s2B6, s2A7, s2B7,
      Fin.lt_def, Fin.le_def, Fin.ext_iff]

theorem s2_piv7 :
    pivotSearch (⟨s2A7, s2B7⟩ : LinSys 8) ⟨7, by omega⟩ = ⟨7, by omega⟩ := by
  norm_num [pivotSearch, pivotFold, finRange_eight, List.foldl, s2A7, Fin.lt_def,
    Fin.ext_iff]

set_option maxHeartbeats 1000000 in
theorem s2_elim8 : elimUpTo s2Sys 8 = ⟨s2A8, s2B8⟩ := by
  have h : elimUpTo s2Sys 8 = elimStep (⟨s2A7, s2B7⟩ : LinSys 8) ⟨7, by omega⟩ := by
    rw [show elimUpTo s2Sys 8 = elimStepN (elimUpTo s2Sys 7) 7 from rfl,
        s2_elim7]
    rfl
  rw [h]
  simp only [elimStep, s2_piv7]
  refine LinSys.ext _ _ (funext2_ofFn _ _ ?_) (funext_ofFn _ _ ?_) <;>
    norm_num [List.ofFn_succ, eliminate, swapRows, s2A7, s2B7, s2A8, s2B8,
      Fin.lt_def, Fin.le_def, Fin.ext_iff]

theorem s2_elimAll : elimAll s2Sys = ⟨s2A8, s2B8⟩ := s2_elim8

/-- Every final pivot of the concrete run is nonzero: the solve succeeded. -/
theorem s2_diag : ∀ i, (elimAll s2Sys).a i i ≠ 0 := by
  rw [s2_elimAll]
  intro i
  fin_cases i <;> norm_num [s2A8]


/-! Symbolic consequences of the homography solve. -/

theorem rectCorners_0 (W H : ℚ) : rectCorners W H 0 = ⟨0, 0⟩ := rfl
theorem rectCorners_1 (W H : ℚ) : rectCorners W H 1 = ⟨W, 0⟩ := rfl
theorem rectCorners_2 (W H : ℚ) : rectCorners W H 2 = ⟨W, H⟩ := rfl
theorem rectCorners_3 (W H : ℚ) : rectCorners W H 3 = ⟨0, H⟩ := rfl

theorem vec9_0 (a0 a1 a2 a3 a4 a5 a6 a7 a8 : ℚ) :
    (![a0, a1, a2, a3, a4, a5, a6, a7, a8] : Fin 9 → ℚ) 0 = a0 := rfl
theorem vec9_1 (a0 a1 a2 a3 a4 a5 a6 a7 a8 : ℚ) :
    (![a0, a1, a2, a3, a4, a5, a6, a7, a8] : Fin 9 → ℚ) 1 = a1 := rfl
theorem vec9_2 (a0 a1 a2 a3 a4 a5 a6 a7 a8 : ℚ) :
    (![a0, a1, a2, a3, a4, a5, a6, a7, a8] : Fin 9 → ℚ) 2 = a2 := rfl
theorem vec9_3 (a0 a1 a2 a3 a4 a5 a6 a7 a8 : ℚ) :
    (![a0, a1, a2, a3, a4, a5, a6, a7, a8] : Fin 9 → ℚ) 3 = a3 := rfl
theorem vec9_4 (a0 a1 a2 a3 a4 a5 a6 a7 a8 : ℚ) :
    (![a0, a1, a2, a3, a4, a5, a6, a7, a8] : Fin 9 → ℚ) 4 = a4 := rfl
theorem vec9_5 (a0 a1 a2 a3 a4 a5 a6 a7 a8 : ℚ) :
    (![a0, a1, a2, a3, a4, a5, a6, a7, a8] : Fin 9 → ℚ) 5 = a5 := rfl
theorem vec9_6 (a0 a1 a2 a3 a4 a5 a6 a7 a8 : ℚ) :
    (![a0, a1, a2, a3, a4, a5, a6, a7, a8] : Fin 9 → ℚ) 6 = a6 := rfl
theorem vec9_7 (a0 a1 a2 a3 a4 a5 a6 a7 a8 : ℚ) :
    (![a0, a1, a2, a3, a4, a5, a6, a7, a8] : Fin 9 → ℚ) 7 = a7 := rfl
theorem vec9_8 (a0 a1 a2 a3 a4 a5 a6 a7 a8 : ℚ) :
    (![a0, a1, a2, a3, a4, a5, a6, a7, a8] : Fin 9 → ℚ) 8 = a8 := rfl

theorem getHM_8 (src dst : Fin 4 → Pt) : getHomographyMatrix src dst 8 = 1 := by
  have h : (8 : Fin 9) = Fin.last 8 := rfl
  rw [getHomographyMatrix, h, Fin.snoc_last]

/-- Each row equation of the solved system, written out: a successful solve makes
the returned matrix map each source-parameter corner to the corresponding
destination-parameter corner projectively. -/
theorem homography_maps_corners (src dst : Fin 4 → Pt)
    (hd : ∀ i, (elimAll (homographySystem src dst)).a i i ≠ 0) (i : Fin 4) :
    (getHomographyMatrix src dst 0 * (src i).x + getHomographyMatrix src dst 1 * (src i).y
        + getHomographyMatrix src dst 2
      = (dst i).x * wCoord (getHomographyMatrix src dst) (src i)) ∧
    (getHomographyMatrix src dst 3 * (src i).x + getHomographyMatrix src dst 4 * (src i).y
        + getHomographyMatrix src dst 5
      = (dst i).y * wCoord (getHomographyMatrix src dst) (src i)) := by
  have hsol := gauss_solves (homographySystem src dst) hd
  have hc0 : getHomographyMatrix src dst 0
      = backSub (elimAll (homographySystem src dst)) 0 := rfl
  have hc1 : getHomographyMatrix src dst 1
      = backSub (elimAll (homographySystem src dst)) 1 := rfl
  have hc2 : getHomographyMatrix src dst 2
      = backSub (elimAll (homographySystem src dst)) 2 := rfl
  have hc3 : getHomographyMatrix src dst 3
      = backSub (elimAll (homographySystem src dst)) 3 := rfl
  have hc4 : getHomographyMatrix src dst 4
      = backSub (elimAll (homographySystem src dst)) 4 := rfl
  have hc5 : getHomographyMatrix src dst 5
      = backSub (elimAll (homographySystem src dst)) 5 := rfl
  have hc6 : getHomographyMatrix src dst 6
      = backSub (elimAll (homographySystem src dst)) 6 := rfl
  have hc7 : getHomographyMatrix src dst 7
      = backSub (elimAll (homographySystem src dst)) 7 := rfl
  have hc8 : getHomographyMatrix src dst 8 = 1 := getHM_8 src dst
  simp only [wCoord, hc0, hc1, hc2, hc3, hc4, hc5, hc6, hc7, hc8]
  set xv := backSub (elimAll (homographySystem src dst)) with hxv
  fin_cases i <;>
    [rw [show ((⟨0, by omega⟩ : Fin 4)) = 0 from rfl];
     rw [show ((⟨1, by omega⟩ : Fin 4)) = 1 from rfl];
     rw [show ((⟨2, by omega⟩ : Fin 4)) = 2 from rfl];
     rw [show ((⟨3, by omega⟩ : Fin 4)) = 3 from rfl]]
  · have e0 : (src 0).x * xv 0 + (src 0).y * xv 1 + 1 * xv 2 + 0 * xv 3 + 0 * xv 4
        + 0 * xv 5 + -(src 0).x * (dst 0).x * xv 6 + -(src 0).y * (dst 0).x * xv 7
        = (dst 0).x := by
      have h0 := hsol ⟨0, by omega⟩
      rw [Fin.sum_univ_eight] at h0
      exact h0
    have e1 : 0 * xv 0 + 0 * xv 1 + 0 * xv 2 + (src 0).x * xv 3 + (src 0).y * xv 4
        + 1 * xv 5 + -(src 0).x * (dst 0).y * xv 6 + -(src 0).y * (dst 0).y * xv 7
        = (dst 0).y := by
      have h1 := hsol ⟨1, by omega⟩
      rw [Fin.sum_univ_eight] at h1
      exact h1
    constructor
    · linear_combination e0
    · linear_combination e1
  · have e0 : (src 1).x * xv 0 + (src 1).y * xv 1 + 1 * xv 2 + 0 * xv 3 + 0 * xv 4
        + 0 * xv 5 + -(src 1).x * (dst 1).x * xv 6 + -(src 1).y * (dst 1).x * xv 7
        = (dst 1).x := by
      have h0 := hsol ⟨2, by omega⟩
      rw [Fin.sum_univ_eight] at h0
      exact h0
    have e1 : 0 * xv 0 + 0 * xv 1 + 0 * xv 2 + (src 1).x * xv 3 + (src 1).y * xv 4
        + 1 * xv 5 + -(src 1).x * (dst 1).y * xv 6 + -(src 1).y * (dst 1).y * xv 7
        = (dst 1).y := by
      have h1 := hsol ⟨3, by omega⟩
      rw [Fin.sum_univ_eight] at h1
      exact h1
    constructor
    · linear_combination e0
    · linear_combination e1
  · have e0 : (src 2).x * xv 0 + (src 2).y * xv 1 + 1 * xv 2 + 0 * xv 3 + 0 * xv 4
        + 0 * xv 5 + -(src 2).x * (dst 2).x * xv 6 + -(src 2).y * (dst 2).x * xv 7
        = (dst 2).x := by
      have h0 := hsol ⟨4, by omega⟩
      rw [Fin.sum_univ_eight] at h0
      exact h0
    have e1 : 0 * xv 0 + 0 * xv 1 + 0 * xv 2 + (src 2).x * xv 3 + (src 2).y * xv 4
        + 1 * xv 5 + -(src 2).x * (dst 2).y * xv 6 + -(src 2).y * (dst 2).y * xv 7
        = (dst 2).y := by
      have h1 := hsol ⟨5, by omega⟩
      rw [Fin.sum_univ_eight] at h1
      exact h1
    constructor
    · linear_combination e0
    · linear_combination e1
  · have e0 : (src 3).x * xv 0 + (src 3).y * xv 1 + 1 * xv 2 + 0 * xv 3 + 0 * xv 4
        + 0 * xv 5 + -(src 3).x * (dst 3).x * xv 6 + -(src 3).y * (dst 3).x * xv 7
        = (dst 3).x := by
      have h0 := hsol ⟨6, by omega⟩
      rw [Fin.sum_univ_eight] at h0
      exact h0
    have e1 : 0 * xv 0 + 0 * xv 1 + 0 * xv 2 + (src 3).x * xv 3 + (src 3).y * xv 4
        + 1 * xv 5 + -(src 3).x * (dst 3).y * xv 6 + -(src 3).y * (dst 3).y * xv 7
        = (dst 3).y := by
      have h1 := hsol ⟨7, by omega⟩
      rw [Fin.sum_univ_eight] at h1
      exact h1
    constructor
    · linear_combination e0
    · linear_combination e1

/-- A successful solve on the identity correspondence (canonical rectangle to
itself, nonzero side lengths) returns exactly the identity homography. -/
theorem identity_homography (W H : ℚ) (hW : W ≠ 0) (hH : H ≠ 0)
    (hd : ∀ i, (elimAll (homographySystem (rectCorners W H) (rectCorners W H))).a i i ≠ 0) :
    getHomographyMatrix (rectCorners W H) (rectCorners W H)
      = ![1, 0, 0, 0, 1, 0, 0, 0, 1] := by
  have hmc := homography_maps_corners (rectCorners W H) (rectCorners W H) hd
  have h8 : getHomographyMatrix (rectCorners W H) (rectCorners W H) 8 = 1 := getHM_8 _ _
  obtain ⟨e00, e01⟩ := hmc 0
  obtain ⟨e10, e11⟩ := hmc 1
  obtain ⟨e20, e21⟩ := hmc 2
  obtain ⟨e30, e31⟩ := hmc 3
  simp only [rectCorners_0, rectCorners_1, rectCorners_2, rectCorners_3, wCoord, h8]
    at e00 e01 e10 e11 e20 e21 e30 e31
  set M := getHomographyMatrix (rectCorners W H) (rectCorners W H) with hM
  have g2 : M 2 = 0 := by linear_combination e00
  have g5 : M 5 = 0 := by linear_combination e01
  have g1 : M 1 = 0 := by
    have : M 1 * H = 0 := by linear_combination e30 - g2
    exact (mul_eq_zero.mp this).resolve_right hH
  have g3 : M 3 = 0 := by
    have : M 3 * W = 0 := by linear_combination e11 - g5
    exact (mul_eq_zero.mp this).resolve_right hW
  have g0 : M 0 = M 6 * W + 1 := by
    have hWeq : M 0 * W = W * (M 6 * W + 1) := by linear_combination e10 - g2
    have : W * (M 0 - (M 6 * W + 1)) = 0 := by linear_combination hWeq
    have h0 := (mul_eq_zero.mp this).resolve_left hW
    linarith [h0]
  have g7 : M 7 = 0 := by
    have hWeq : M 0 * W = W * (M 6 * W + M 7 * H + 1) := by
      linear_combination e20 - g1 * H - g2
    have : W * (M 7 * H) = 0 := by linear_combination g0 * W - hWeq
    have h1 := (mul_eq_zero.mp this).resolve_left hW
    exact (mul_eq_zero.mp h1).resolve_right hH
  have g4 : M 4 = 1 := by
    have hHeq : M 4 * H = H * (M 7 * H + 1) := by linear_combination e31 - g5
    have : H * (M 4 - 1) = 0 := by linear_combination hHeq + g7 * H * H
    have h1 := (mul_eq_zero.mp this).resolve_left hH
    linarith [h1]
  have g6 : M 6 = 0 := by
    have hHeq : M 3 * W + M 4 * H + M 5 = H * (M 6 * W + M 7 * H + 1) := e21
    have : H * (M 6 * W) = 0 := by
      linear_combination g3 * W + g4 * H + g5 - g7 * H * H - hHeq
    have h1 := (mul_eq_zero.mp this).resolve_left hH
    exact (mul_eq_zero.mp h1).resolve_right hW
  have g0f : M 0 = 1 := by rw [g0, g6]; ring
  funext k
  fin_cases k
  · rw [show ((⟨0, by omega⟩ : Fin 9)) = 0 from rfl, g0f, vec9_0]
  · rw [show ((⟨1, by omega⟩ : Fin 9)) = 1 from rfl, g1, vec9_1]
  · rw [show ((⟨2, by omega⟩ : Fin 9)) = 2 from rfl, g2, vec9_2]
  · rw [show ((⟨3, by omega⟩ : Fin 9)) = 3 from rfl, g3, vec9_3]
  · rw [show ((⟨4, by omega⟩ : Fin 9)) = 4 from rfl, g4, vec9_4]
  · rw [show ((⟨5, by omega⟩ : Fin 9)) = 5 from rfl, g5, vec9_5]
  · rw [show ((⟨6, by omega⟩ : Fin 9)) = 6 from rfl, g6, vec9_6]
  · rw [show ((⟨7, by omega⟩ : Fin 9)) = 7 from rfl, g7, vec9_7]
  · rw [show ((⟨8, by omega⟩ : Fin 9)) = 8 from rfl, h8, vec9_8]

/-- Applying the identity homography is the identity on points. -/
theorem applyH_identity (p : Pt) :
    applyH ![1, 0, 0, 0, 1, 0, 0, 0, 1] p = p := by
  obtain ⟨px, py⟩ := p
  simp [applyH, wCoord, vec9_0, vec9_1, vec9_2, vec9_3, vec9_4, vec9_5, vec9_6,
    vec9_7, vec9_8]

theorem destWidth_rect (W H : ℕ) : destWidth (rectCorners W H) = W := by
  have h1 : topWidthSq (rectCorners W H) = ((W : ℚ)) ^ 2 := by
    simp [topWidthSq, rectCorners_0, rectCorners_1]
  have h2 : bottomWidthSq (rectCorners W H) = ((W : ℚ)) ^ 2 := by
    simp [bottomWidthSq, rectCorners_2, rectCorners_3]
  have h3 : ((W : ℚ)) ^ 2 = (((W ^ 2 : ℕ) : ℤ) : ℚ) := by push_cast; ring
  rw [destWidth, h1, h2, max_self, h3, Int.floor_intCast, Int.toNat_natCast]
  rw [pow_two, Nat.sqrt_eq]

theorem destHeight_rect (W H : ℕ) : destHeight (rectCorners W H) = H := by
  have h1 : leftHeightSq (rectCorners W H) = ((H : ℚ)) ^ 2 := by
    simp [leftHeightSq, rectCorners_0, rectCorners_3]
  have h2 : rightHeightSq (rectCorners W H) = ((H : ℚ)) ^ 2 := by
    simp [rightHeightSq, rectCorners_1, rectCorners_2]
  have h3 : ((H : ℚ)) ^ 2 = (((H ^ 2 : ℕ) : ℤ) : ℚ) := by push_cast; ring
  rw [destHeight, h1, h2, max_self, h3, Int.floor_intCast, Int.toNat_natCast]
  rw [pow_two, Nat.sqrt_eq]

/-- The concrete matrix `warpPerspective` computes for the identity corner set of
a 2×2 rectangle is the identity homography. -/
theorem cast2 : (((2 : ℕ) : ℚ)) = (2 : ℚ) := by norm_num

theorem s2_destWidth : destWidth (rectCorners 2 2) = 2 := by
  have h := destWidth_rect 2 2
  rwa [cast2] at h

theorem s2_destHeight : destHeight (rectCorners 2 2) = 2 := by
  have h := destHeight_rect 2 2
  rwa [cast2] at h

theorem s2_diag_sys :
    ∀ i, (elimAll (homographySystem (rectCorners 2 2) (rectCorners 2 2))).a i i ≠ 0 := by
  have h := s2_diag
  rwa [show s2Sys = homographySystem (rectCorners 2 2) (rectCorners 2 2) from rfl] at h

theorem s2_matrix : warpMatrix (rectCorners 2 2) = ![1, 0, 0, 0, 1, 0, 0, 0, 1] := by
  rw [warpMatrix, s2_destWidth, s2_destHeight, cast2]
  exact identity_homography 2 2 (by norm_num) (by norm_num) s2_diag_sys


/-! Destination sizing: the executable `Nat.sqrt` form agrees with the
floor-of-real-square-root computation of the source. -/

theorem floor_real_sqrt_rat (q : ℚ) (hq : 0 ≤ q) :
    ⌊Real.sqrt ((q : ℝ))⌋ = ((Nat.sqrt (Int.toNat ⌊q⌋) : ℤ)) := by
  have hfl : (0 : ℤ) ≤ ⌊q⌋ := Int.floor_nonneg.mpr hq
  have hcast : ((Int.toNat ⌊q⌋ : ℤ)) = ⌊q⌋ := Int.toNat_of_nonneg hfl
  set m := Int.toNat ⌊q⌋ with hm
  have hmq : ((m : ℚ)) ≤ q := by
    have h1 : ((m : ℚ)) = ((⌊q⌋ : ℤ) : ℚ) := by exact_mod_cast congrArg (fun z : ℤ => (z : ℚ)) hcast
    rw [h1]
    exact Int.floor_le q
  have hq1 : q < (m : ℚ) + 1 := by
    have h1 : ((m : ℚ)) = ((⌊q⌋ : ℤ) : ℚ) := by exact_mod_cast congrArg (fun z : ℤ => (z : ℚ)) hcast
    rw [h1]
    exact Int.lt_floor_add_one q
  have hmqR : ((m : ℝ)) ≤ ((q : ℝ)) := by exact_mod_cast hmq
  have hq1R : ((q : ℝ)) < ((m : ℝ)) + 1 := by exact_mod_cast hq1
  rw [Int.floor_eq_iff]
  constructor
  · push_cast
    calc ((Nat.sqrt m : ℝ)) ≤ Real.sqrt ((m : ℝ)) := Real.nat_sqrt_le_real_sqrt
    _ ≤ Real.sqrt ((q : ℝ)) := Real.sqrt_le_sqrt hmqR
  · push_cast
    rw [Real.sqrt_lt' (by positivity)]
    calc ((q : ℝ)) < ((m : ℝ)) + 1 := hq1R
    _ ≤ ((Nat.sqrt m : ℝ) + 1) ^ 2 := by
        have hnat : m + 1 ≤ (Nat.sqrt m + 1) * (Nat.sqrt m + 1) := Nat.lt_succ_sqrt m
        have : ((m : ℝ)) + 1 ≤ ((Nat.sqrt m + 1 : ℕ) : ℝ) * ((Nat.sqrt m + 1 : ℕ) : ℝ) := by
          exact_mod_cast hnat
        calc ((m : ℝ)) + 1 ≤ ((Nat.sqrt m + 1 : ℕ) : ℝ) * ((Nat.sqrt m + 1 : ℕ) : ℝ) := this
        _ = ((Nat.sqrt m : ℝ) + 1) ^ 2 := by push_cast; ring

theorem sqrt_max_comm (A B : ℝ) :
    max (Real.sqrt A) (Real.sqrt B) = Real.sqrt (max A B) := by
  have hmono : Monotone Real.sqrt := fun a b h => Real.sqrt_le_sqrt h
  exact (hmono.map_max).symm

theorem destWidth_floor (c : Fin 4 → Pt) :
    ((destWidth c : ℤ)) = ⌊max (euclidDist (c 0) (c 1)) (euclidDist (c 3) (c 2))⌋ := by
  have h1 : euclidDist (c 0) (c 1) = Real.sqrt ((topWidthSq c : ℝ)) := by
    rw [euclidDist, topWidthSq]
    congr 1
    push_cast
    ring
  have h2 : euclidDist (c 3) (c 2) = Real.sqrt ((bottomWidthSq c : ℝ)) := by
    rw [euclidDist, bottomWidthSq]
    congr 1
    push_cast
    ring
  have h3 : ((max (topWidthSq c) (bottomWidthSq c) : ℚ) : ℝ)
      = max ((topWidthSq c : ℝ)) ((bottomWidthSq c : ℝ)) := by
    push_cast
    rfl
  have h0 : (0 : ℚ) ≤ max (topWidthSq c) (bottomWidthSq c) := by
    have : (0 : ℚ) ≤ topWidthSq c := by rw [topWidthSq]; positivity
    exact le_trans this (le_max_left _ _)
  rw [h1, h2, sqrt_max_comm, ← h3, floor_real_sqrt_rat _ h0, destWidth]

theorem destHeight_floor (c : Fin 4 → Pt) :
    ((destHeight c : ℤ)) = ⌊max (euclidDist (c 0) (c 3)) (euclidDist (c 1) (c 2))⌋ := by
  have h1 : euclidDist (c 0) (c 3) = Real.sqrt ((leftHeightSq c : ℝ)) := by
    rw [euclidDist, leftHeightSq]
    congr 1
    push_cast
    ring
  have h2 : euclidDist (c 1) (c 2) = Real.sqrt ((rightHeightSq c : ℝ)) := by
    rw [euclidDist, rightHeightSq]
    congr 1
    push_cast
    ring
  have h3 : ((max (leftHeightSq c) (rightHeightSq c) : ℚ) : ℝ)
      = max ((leftHeightSq c : ℝ)) ((rightHeightSq c : ℝ)) := by
    push_cast
    rfl
  have h0 : (0 : ℚ) ≤ max (leftHeightSq c) (rightHeightSq c) := by
    have : (0 : ℚ) ≤ leftHeightSq c := by rw [leftHeightSq]; positivity
    exact le_trans this (le_max_left _ _)
  rw [h1, h2, sqrt_max_comm, ← h3, floor_real_sqrt_rat _ h0, destHeight]

/-! Pixel-level facts. -/

theorem clampByte_cast (m : ℕ) (hm : m ≤ 255) : clampByte ((m : ℚ)) = m := by
  rw [clampByte]
  by_cases h0 : ((m : ℚ)) ≤ 0
  · have hm0 : m = 0 := by exact_mod_cast le_antisymm h0 (by positivity)
    simp [h0, hm0]
  · rw [if_neg h0]
    by_cases h255 : (255 : ℚ) ≤ ((m : ℚ))
    · have hm255 : m = 255 := le_antisymm hm (by exact_mod_cast h255)
      simp [h255, hm255]
    · rw [if_neg h255, Int.floor_natCast]
      norm_num

theorem warpPixel_eq (img : Image) (corners : Fin 4 → Pt) (x y : ℕ) :
    (warpPerspective img corners).pixel x y = warpPixelAt img (warpMatrix corners) x y := rfl

/-- C4 helper: the guard of the pixel loop, named. -/
def sampleGuard (img : Image) (h : Fin 9 → ℚ) (x y : ℕ) : Prop :=
  0 ≤ (applyH h ⟨(x : ℚ), (y : ℚ)⟩).x
    ∧ (applyH h ⟨(x : ℚ), (y : ℚ)⟩).x < (img.width : ℚ) - 1
    ∧ 0 ≤ (applyH h ⟨(x : ℚ), (y : ℚ)⟩).y
    ∧ (applyH h ⟨(x : ℚ), (y : ℚ)⟩).y < (img.height : ℚ) - 1

theorem warpPixelAt_of_guard_false (img : Image) (h : Fin 9 → ℚ) (x y : ℕ)
    (hg : ¬ sampleGuard img h x y) (c : Fin 4) : warpPixelAt img h x y c = 0 := by
  simp only [sampleGuard] at hg
  rw [warpPixelAt, if_neg hg]

theorem warpPixelAt_alpha (img : Image) (h : Fin 9 → ℚ) (x y : ℕ)
    (hg : sampleGuard img h x y) : warpPixelAt img h x y 3 = 255 := by
  simp only [sampleGuard] at hg
  rw [warpPixelAt, if_pos hg]
  rw [show (((3 : Fin 4)) : ℕ) = 3 from rfl]
  norm_num

theorem warpPixelAt_int_coords (img : Image) (h : Fin 9 → ℚ) (x y m k : ℕ)
    (hwf : img.Wellformed)
    (hx : (applyH h ⟨(x : ℚ), (y : ℚ)⟩).x = (m : ℚ))
    (hy : (applyH h ⟨(x : ℚ), (y : ℚ)⟩).y = (k : ℚ))
    (hbx : (m : ℚ) < (img.width : ℚ) - 1) (hby : (k : ℚ) < (img.height : ℚ) - 1)
    (c : Fin 4) (hc : (c : ℕ) < 3) :
    warpPixelAt img h x y c = img.data ((k * img.width + m) * 4 + (c : ℕ)) := by
  have hg : sampleGuard img h x y := by
    refine ⟨by rw [hx]; positivity, by rw [hx]; exact hbx,
            by rw [hy]; positivity, by rw [hy]; exact hby⟩
  simp only [sampleGuard] at hg
  rw [warpPixelAt, if_pos hg, if_pos hc, hx, hy, Int.floor_natCast, Int.floor_natCast,
      Int.toNat_natCast, Int.toNat_natCast, sub_self]
  norm_num
  exact clampByte_cast _ (hwf _)


/-! Claim C1: round trip of the computed homography over the destination corners. -/

/-- Claim C1: for a corner set whose solve succeeds (all pivots nonzero — the
non-degeneracy the algorithm requires) and whose homogeneous coordinate does not
vanish at a canonical destination corner, applying the matrix returned by
`getHomographyMatrix(dstPts, srcPts)` to that destination corner with
homogeneous division recovers the corresponding input source corner exactly. -/
theorem c1_roundtrip (corners : Fin 4 → Pt)
    (hd : ∀ i, (elimAll (homographySystem
        (rectCorners (destWidth corners) (destHeight corners)) corners)).a i i ≠ 0)
    (i : Fin 4)
    (hw : wCoord (warpMatrix corners)
        (rectCorners (destWidth corners) (destHeight corners) i) ≠ 0) :
    applyH (warpMatrix corners)
        (rectCorners (destWidth corners) (destHeight corners) i) = corners i := by
  obtain ⟨hu, hv⟩ := homography_maps_corners
      (rectCorners (destWidth corners) (destHeight corners)) corners hd i
  have hwm : warpMatrix corners
      = getHomographyMatrix (rectCorners (destWidth corners) (destHeight corners)) corners :=
    rfl
  rw [hwm] at hw ⊢
  rw [applyH]
  have hcor : corners i = ⟨(corners i).x, (corners i).y⟩ := rfl
  rw [hcor]
  congr 1
  · rw [hu]
    exact mul_div_cancel_right₀ _ hw
  · rw [hv]
    exact mul_div_cancel_right₀ _ hw

/-- Witness for C1: the concrete corner set `rectCorners 2 2`, destination corner
index 1. -/
theorem c1_witness :
    applyH (warpMatrix (rectCorners 2 2))
        (rectCorners (destWidth (rectCorners 2 2)) (destHeight (rectCorners 2 2)) 1)
      = rectCorners 2 2 1 := by
  apply c1_roundtrip (rectCorners 2 2)
  · rw [s2_destWidth, s2_destHeight, cast2]
    exact s2_diag_sys
  · rw [s2_matrix, s2_destWidth, s2_destHeight, cast2, rectCorners_1]
    rw [wCoord, vec9_6, vec9_7, vec9_8]
    norm_num

/-! Claim C3: destination sizing. -/

/-- Claim C3: `warpPerspective` sets the destination width to
`⌊max |TL-TR| |BL-BR|⌋` and the destination height to `⌊max |TL-BL| |TR-BR|⌋`,
each edge length the Euclidean distance of the adjacent corners. -/
theorem c3_dest_dims (img : Image) (corners : Fin 4 → Pt) :
    (((warpPerspective img corners).width : ℤ))
        = ⌊max (euclidDist (corners 0) (corners 1)) (euclidDist (corners 3) (corners 2))⌋ ∧
    (((warpPerspective img corners).height : ℤ))
        = ⌊max (euclidDist (corners 0) (corners 3)) (euclidDist (corners 1) (corners 2))⌋ :=
  ⟨destWidth_floor corners, destHeight_floor corners⟩

/-! Claim C4: bounds handling in the pixel loop. -/

/-- Claim C4: a destination pixel whose mapped source coordinate `(u/w, v/w)`
falls outside the closed box `[0, width-1] × [0, height-1]` is left fully
transparent (all four RGBA bytes stay 0), and every pixel that passes the code's
sampling guard gets alpha 255. -/
theorem c4_bounds (img : Image) (corners : Fin 4 → Pt) (x y : ℕ) :
    (¬ (0 ≤ (applyH (warpMatrix corners) ⟨(x : ℚ), (y : ℚ)⟩).x ∧
          (applyH (warpMatrix corners) ⟨(x : ℚ), (y : ℚ)⟩).x ≤ (img.width : ℚ) - 1 ∧
          0 ≤ (applyH (warpMatrix corners) ⟨(x : ℚ), (y : ℚ)⟩).y ∧
          (applyH (warpMatrix corners) ⟨(x : ℚ), (y : ℚ)⟩).y ≤ (img.height : ℚ) - 1) →
      ∀ c : Fin 4, (warpPerspective img corners).pixel x y c = 0) ∧
    (sampleGuard img (warpMatrix corners) x y →
      (warpPerspective img corners).pixel x y 3 = 255) := by
  constructor
  · intro hout c
    rw [warpPixel_eq]
    apply warpPixelAt_of_guard_false
    intro hg
    exact hout ⟨hg.1, le_of_lt hg.2.1, hg.2.2.1, le_of_lt hg.2.2.2⟩
  · intro hin
    rw [warpPixel_eq]
    exact warpPixelAt_alpha img _ x y hin

/-- Witness for C4: destination pixel (1,1) of a 1×1 image maps outside the box
and stays transparent; destination pixel (0,0) of a 3×3 image is sampled and
gets alpha 255 (both under the identity corner set of side 2). -/
theorem c4_witness :
    (∀ c : Fin 4, (warpPerspective img1 (rectCorners 2 2)).pixel 1 1 c = 0) ∧
    (warpPerspective img3 (rectCorners 2 2)).pixel 0 0 3 = 255 := by
  constructor
  · apply (c4_bounds img1 (rectCorners 2 2) 1 1).1
    rw [s2_matrix, applyH_identity]
    norm_num [img1]
  · apply (c4_bounds img3 (rectCorners 2 2) 0 0).2
    rw [sampleGuard, s2_matrix, applyH_identity]
    norm_num [img3]

/-! Claim C8: bilinear sampling at exact integer coordinates. -/

/-- Claim C8: when the mapped source position of a destination pixel has exact
integer coordinates `(m, k)` and passes the sampling guard, the bilinear
interpolation writes exactly the source pixel's byte for each RGB channel. -/
theorem c8_exact_integer (img : Image) (corners : Fin 4 → Pt) (x y m k : ℕ)
    (hwf : img.Wellformed)
    (hx : (applyH (warpMatrix corners) ⟨(x : ℚ), (y : ℚ)⟩).x = (m : ℚ))
    (hy : (applyH (warpMatrix corners) ⟨(x : ℚ), (y : ℚ)⟩).y = (k : ℚ))
    (hbx : (m : ℚ) < (img.width : ℚ) - 1) (hby : (k : ℚ) < (img.height : ℚ) - 1)
    (c : Fin 4) (hc : (c : ℕ) < 3) :
    (warpPerspective img corners).pixel x y c
      = img.data ((k * img.width + m) * 4 + (c : ℕ)) :=
  warpPixelAt_int_coords img (warpMatrix corners) x y m k hwf hx hy hbx hby c hc

/-- Witness for C8: pixel (0,0) of a 3×3 image under the identity corner set of
side 2 maps to integer source position (0,0) and receives that pixel's red
byte. -/
theorem c8_witness :
    (warpPerspective img3 (rectCorners 2 2)).pixel 0 0 0 = 0 := by
  have h := c8_exact_integer img3 (rectCorners 2 2) 0 0 0 0
    (fun i => by simp [img3]; omega)
    (by rw [s2_matrix, applyH_identity])
    (by rw [s2_matrix, applyH_identity])
    (by norm_num [img3]) (by norm_num [img3]) 0 (by norm_num)
  rw [h]
  norm_num [img3]

/-! Claim C2: the identity case. -/

/-- Counterexample to C2 as stated: for a 2×2 all-200 image with the corners set
to the image's own rectangle, the output dimensions match but the last
destination pixel (1,1) is left transparent (byte 0) while the source pixel
there has byte 200 — content does not match at every destination pixel. -/
theorem c2_counterexample :
    (warpPerspective img2 (rectCorners 2 2)).width = 2 ∧
    (warpPerspective img2 (rectCorners 2 2)).height = 2 ∧
    (warpPerspective img2 (rectCorners 2 2)).pixel 1 1 0 = 0 ∧
    img2.data ((1 * 2 + 1) * 4 + 0) = 200 := by
  refine ⟨s2_destWidth, s2_destHeight, ?_, rfl⟩
  rw [warpPixel_eq]
  apply warpPixelAt_of_guard_false
  rw [sampleGuard, s2_matrix, applyH_identity]
  norm_num [img2]

/-- Claim C2, amended: in the identity case the output dimensions equal the
source dimensions and every destination pixel strictly inside the last row and
column reproduces the source exactly with alpha 255, while pixels in the last
row or column are left fully transparent (the code's sampling guard uses
`srcX < width - 1`). -/
theorem c2_identity_amended (img : Image) (W H : ℕ)
    (hInW : img.width = W) (hInH : img.height = H) (hwf : img.Wellformed)
    (hW0 : 0 < W) (hH0 : 0 < H)
    (hd : ∀ i, (elimAll (homographySystem
        (rectCorners (W : ℚ) (H : ℚ)) (rectCorners (W : ℚ) (H : ℚ)))).a i i ≠ 0) :
    (warpPerspective img (rectCorners (W : ℚ) (H : ℚ))).width = W ∧
    (warpPerspective img (rectCorners (W : ℚ) (H : ℚ))).height = H ∧
    ∀ x y : ℕ, x < W → y < H →
      ((x + 1 < W ∧ y + 1 < H →
        (∀ c : Fin 4, (c : ℕ) < 3 →
          (warpPerspective img (rectCorners (W : ℚ) (H : ℚ))).pixel x y c
            = img.data ((y * W + x) * 4 + (c : ℕ))) ∧
        (warpPerspective img (rectCorners (W : ℚ) (H : ℚ))).pixel x y 3 = 255) ∧
       (¬ (x + 1 < W ∧ y + 1 < H) →
        ∀ c : Fin 4, (warpPerspective img (rectCorners (W : ℚ) (H : ℚ))).pixel x y c = 0)) := by
  have hm : warpMatrix (rectCorners (W : ℚ) (H : ℚ)) = ![1, 0, 0, 0, 1, 0, 0, 0, 1] := by
    rw [warpMatrix, destWidth_rect, destHeight_rect]
    exact identity_homography (W : ℚ) (H : ℚ)
      (Nat.cast_ne_zero.mpr hW0.ne') (Nat.cast_ne_zero.mpr hH0.ne') hd
  refine ⟨destWidth_rect W H, destHeight_rect W H, ?_⟩
  intro x y hx hy
  have hmap : applyH (warpMatrix (rectCorners (W : ℚ) (H : ℚ))) ⟨(x : ℚ), (y : ℚ)⟩
      = ⟨(x : ℚ), (y : ℚ)⟩ := by
    rw [hm]
    exact applyH_identity _
  constructor
  · rintro ⟨hx1, hy1⟩
    have hbx : ((x : ℚ)) < (img.width : ℚ) - 1 := by
      rw [hInW]
      have hc : ((x : ℚ)) + 1 < (W : ℚ) := by exact_mod_cast hx1
      linarith
    have hby : ((y : ℚ)) < (img.height : ℚ) - 1 := by
      rw [hInH]
      have hc : ((y : ℚ)) + 1 < (H : ℚ) := by exact_mod_cast hy1
      linarith
    constructor
    · intro c hc
      have h := warpPixelAt_int_coords img (warpMatrix (rectCorners (W : ℚ) (H : ℚ)))
        x y x y hwf (by rw [hmap]) (by rw [hmap]) hbx hby c hc
      rw [warpPixel_eq, h, hInW]
    · rw [warpPixel_eq]
      apply warpPixelAt_alpha
      exact ⟨by rw [hmap]; positivity, by rw [hmap]; exact hbx,
             by rw [hmap]; positivity, by rw [hmap]; exact hby⟩
  · intro hnot c
    rw [warpPixel_eq]
    apply warpPixelAt_of_guard_false
    rintro ⟨hg1, hg2, hg3, hg4⟩
    rw [hmap] at hg2 hg4
    rw [hInW] at hg2
    rw [hInH] at hg4
    apply hnot
    constructor
    · have hc : ((x : ℚ)) + 1 < (W : ℚ) := by linarith
      exact_mod_cast hc
    · have hc : ((y : ℚ)) + 1 < (H : ℚ) := by linarith
      exact_mod_cast hc

/-- Witness for the amended C2: the 2×2 all-200 image; the output dimensions are
2×2 and the interior pixel (0,0) reproduces the source byte. -/
theorem c2_witness :
    (warpPerspective img2 (rectCorners ((2 : ℕ) : ℚ) ((2 : ℕ) : ℚ))).width = 2 ∧
    (warpPerspective img2 (rectCorners ((2 : ℕ) : ℚ) ((2 : ℕ) : ℚ))).pixel 0 0 0 = 200 := by
  have h := c2_identity_amended img2 2 2 rfl rfl (fun i => by norm_num [img2])
    (by norm_num) (by norm_num) (by rw [cast2]; exact s2_diag_sys)
  refine ⟨h.1, ?_⟩
  have h2 := ((h.2.2 0 0 (by norm_num) (by norm_num)).1 ⟨by norm_num, by norm_num⟩).1
    0 (by norm_num)
  rw [h2]
  norm_num [img2]


/-! Claim C5: the letterboxing layout computation. -/

/-- Counterexample to C5 as stated: with the positive container size (200, 60)
and a square image, the computed display height is 120, violating the bound
`displayHeight ≤ Ch - 2·padding` — the claim fails for positive containers
smaller than twice the padding. -/
theorem c5_counterexample :
    ¬ ((updateLayout 200 60 100 100).width / (updateLayout 200 60 100 100).height
          = 100 / 100 ∧
       (updateLayout 200 60 100 100).width ≤ 200 - 2 * 40 ∧
       (updateLayout 200 60 100 100).height ≤ 60 - 2 * 40 ∧
       ((updateLayout 200 60 100 100).width = 200 - 2 * 40 ∨
        (updateLayout 200 60 100 100).height = 60 - 2 * 40) ∧
       (updateLayout 200 60 100 100).left = (200 - (updateLayout 200 60 100 100).width) / 2 ∧
       (updateLayout 200 60 100 100).top = (60 - (updateLayout 200 60 100 100).height) / 2) := by
  intro h
  have hb := h.2.2.1
  norm_num [updateLayout] at hb

/-- Claim C5, amended: for containers strictly larger than twice the padding and
a positive image aspect, the layout preserves the aspect ratio exactly, fits in
the padded container, attains one of the two bounds, and centers the image. -/
theorem c5_letterbox (cW cH iW iH : ℚ) (hcW : 2 * 40 < cW) (hcH : 2 * 40 < cH)
    (hiW : 0 < iW) (hiH : 0 < iH) :
    (updateLayout cW cH iW iH).width / (updateLayout cW cH iW iH).height = iW / iH ∧
    (updateLayout cW cH iW iH).width ≤ cW - 2 * 40 ∧
    (updateLayout cW cH iW iH).height ≤ cH - 2 * 40 ∧
    ((updateLayout cW cH iW iH).width = cW - 2 * 40 ∨
     (updateLayout cW cH iW iH).height = cH - 2 * 40) ∧
    (updateLayout cW cH iW iH).left = (cW - (updateLayout cW cH iW iH).width) / 2 ∧
    (updateLayout cW cH iW iH).top = (cH - (updateLayout cW cH iW iH).height) / 2 := by
  have haW : (0 : ℚ) < cW - 40 * 2 := by linarith
  have haH : (0 : ℚ) < cH - 40 * 2 := by linarith
  have hR : (0 : ℚ) < iW / iH := div_pos hiW hiH
  simp only [updateLayout]
  by_cases hc : (cW - 40 * 2) / (cH - 40 * 2) < iW / iH
  · simp only [if_pos hc]
    have hb : (cW - 40 * 2) / (iW / iH) ≤ cH - 40 * 2 := by
      have h1 : cW - 40 * 2 < iW / iH * (cH - 40 * 2) := (div_lt_iff haH).mp hc
      have h2 : (cW - 40 * 2) / (iW / iH) < cH - 40 * 2 := by
        rw [div_lt_iff hR]
        linarith [h1]
      exact le_of_lt h2
    refine ⟨?_, by linarith, by linarith [hb], Or.inl (by ring), by trivial, by trivial⟩
    rw [div_div_eq_mul_div, mul_comm]
    exact mul_div_cancel_right₀ _ haW.ne'
  · simp only [if_neg hc]
    have hb : (cH - 40 * 2) * (iW / iH) ≤ cW - 40 * 2 := by
      have h1 : iW / iH * (cH - 40 * 2) ≤ cW - 40 * 2 :=
        (le_div_iff haH).mp (not_lt.mp hc)
      linarith [h1]
    refine ⟨?_, by linarith [hb], by linarith, Or.inr (by ring), by trivial, by trivial⟩
    rw [mul_comm]
    exact mul_div_cancel_right₀ _ haH.ne'

/-- Witness for the amended C5: a 600×400 container with a square image. -/
theorem c5_witness :
    (updateLayout 600 400 100 100).width / (updateLayout 600 400 100 100).height
        = 100 / 100 ∧
    (updateLayout 600 400 100 100).width ≤ 600 - 2 * 40 ∧
    (updateLayout 600 400 100 100).height ≤ 400 - 2 * 40 ∧
    ((updateLayout 600 400 100 100).width = 600 - 2 * 40 ∨
     (updateLayout 600 400 100 100).height = 400 - 2 * 40) ∧
    (updateLayout 600 400 100 100).left = (600 - (updateLayout 600 400 100 100).width) / 2 ∧
    (updateLayout 600 400 100 100).top = (400 - (updateLayout 600 400 100 100).height) / 2 :=
  c5_letterbox 600 400 100 100 (by norm_num) (by norm_num) (by norm_num) (by norm_num)

/-! Claim C7: a drag move touches only the dragged point. -/

/-- Claim C7: while a drag of point `i` is active, `handleMove` sets `points[i]`
to the pointer position minus container origin minus display offset, with no
clamping, and leaves every other entry of the list unchanged. -/
theorem c7_drag_updates_one (points : List Pt) (i : ℕ) (hi : i < points.length)
    (px py rl rt : ℚ) (dims : LayoutDims) :
    (handleMove (some i) px py rl rt dims points)[i]?
        = some ⟨px - rl - dims.left, py - rt - dims.top⟩ ∧
    ∀ j, j ≠ i → (handleMove (some i) px py rl rt dims points)[j]? = points[j]? := by
  constructor
  · simp only [handleMove]
    exact List.getElem?_set_self hi
  · intro j hj
    simp only [handleMove]
    exact List.getElem?_set_ne (fun hc => hj hc.symm)

/-- Witness for C7: a four-point list with a drag of point 1. -/
theorem c7_witness :
    (handleMove (some 1) 10 20 1 2 ⟨100, 50, 3, 4, 1⟩
        [⟨0, 0⟩, ⟨5, 5⟩, ⟨6, 6⟩, ⟨7, 7⟩])[1]?
      = some ⟨10 - 1 - (⟨100, 50, 3, 4, 1⟩ : LayoutDims).left,
              20 - 2 - (⟨100, 50, 3, 4, 1⟩ : LayoutDims).top⟩ ∧
    (handleMove (some 1) 10 20 1 2 ⟨100, 50, 3, 4, 1⟩
        [⟨0, 0⟩, ⟨5, 5⟩, ⟨6, 6⟩, ⟨7, 7⟩])[0]?
      = ([⟨0, 0⟩, ⟨5, 5⟩, ⟨6, 6⟩, ⟨7, 7⟩] : List Pt)[0]? := by
  have h := c7_drag_updates_one [⟨0, 0⟩, ⟨5, 5⟩, ⟨6, 6⟩, ⟨7, 7⟩] 1 (by norm_num)
    10 20 1 2 ⟨100, 50, 3, 4, 1⟩
  exact ⟨h.1, h.2 0 (by norm_num)⟩

/-! Claim C9: the number of points. -/

theorem applyEv_points_len (s : EditorState) (e : Ev) :
    (applyEv e s).points.length = s.points.length ∨ (applyEv e s).points.length = 4 := by
  cases e with
  | imageLoad cW cH iW iH =>
    cases hc : s.capturedPoints with
    | none =>
      simp only [applyEv, hc, runUpdateLayout]
      split_ifs with h
      · right; rfl
      · left; rfl
    | some c =>
      left
      simp [applyEv, hc]
  | resize cW cH iW iH =>
    cases hc : s.capturedPoints with
    | none =>
      left
      simp [applyEv, hc]
    | some c =>
      simp only [applyEv, hc, runUpdateLayout]
      split_ifs with h
      · right; rfl
      · left; rfl
  | pointerDown i => left; rfl
  | pointerMove px py rl rt =>
    cases hd : s.dragging with
    | none => left; simp [applyEv, handleMove, hd]
    | some i => left; simp [applyEv, handleMove, hd]
  | pointerUp => left; rfl
  | reset => right; rfl
  | confirm =>
    simp only [applyEv]
    split_ifs <;> left <;> rfl
  | warpFailed =>
    simp only [applyEv]
    split_ifs <;> left <;> rfl
  | warpSucceeded =>
    simp only [applyEv]
    split_ifs <;> left <;> rfl

/-- Counterexample to C9 as stated: the initial session state is reachable and
holds zero points, not four — the Corner Set does not exist before the first
layout computation. -/
theorem c9_counterexample : Reachable initState ∧ initState.points.length ≠ 4 :=
  ⟨Reachable.init, by simp [initState]⟩

/-- Claim C9, amended: every reachable session state holds either zero points
(before initialisation) or exactly four, and once the list has four points,
every event preserves that count. -/
theorem c9_points_invariant :
    (∀ s, Reachable s → s.points.length = 0 ∨ s.points.length = 4) ∧
    (∀ (s : EditorState) (e : Ev), s.points.length = 4 → (applyEv e s).points.length = 4) := by
  have hpres : ∀ (s : EditorState) (e : Ev),
      s.points.length = 4 → (applyEv e s).points.length = 4 := by
    intro s e h4
    rcases applyEv_points_len s e with h | h
    · rw [h, h4]
    · exact h
  refine ⟨?_, hpres⟩
  intro s hs
  induction hs with
  | init => left; rfl
  | step s e hprev ih =>
    rcases ih with h0 | h4
    · rcases applyEv_points_len s e with h | h
      · left; rw [h, h0]
      · right; exact h
    · right; exact hpres s e h4

/-- Witness for the amended C9: the initial state and a reset on a loaded
session. -/
theorem c9_witness :
    (initState.points.length = 0 ∨ initState.points.length = 4) ∧
    (applyEv Ev.reset (applyEv (Ev.imageLoad 1080 1080 100 100) initState)).points.length
      = 4 := by
  constructor
  · exact c9_points_invariant.1 initState Reachable.init
  · apply c9_points_invariant.2
    simp [applyEv, initState, runUpdateLayout, displayCorners]

/-! Claim C10: the `isProcessing` guard. -/

theorem c10_inv (s : EditorState) (hs : Reachable s) :
    s.activeWarps ≤ 1 ∧ (s.activeWarps = 1 → s.isProcessing = true) := by
  induction hs with
  | init => exact ⟨by simp [initState], by simp [initState]⟩
  | step s e hprev ih =>
    obtain ⟨ih1, ih2⟩ := ih
    cases e with
    | imageLoad cW cH iW iH =>
      cases hc : s.capturedPoints with
      | none =>
        simp only [applyEv, hc, runUpdateLayout]
        split_ifs <;> exact ⟨ih1, ih2⟩
      | some c =>
        simp only [applyEv, hc]
        exact ⟨ih1, ih2⟩
    | resize cW cH iW iH =>
      cases hc : s.capturedPoints with
      | none =>
        simp only [applyEv, hc]
        exact ⟨ih1, ih2⟩
      | some c =>
        simp only [applyEv, hc, runUpdateLayout]
        split_ifs <;> exact ⟨ih1, ih2⟩
    | pointerDown i => exact ⟨ih1, ih2⟩
    | pointerMove px py rl rt => exact ⟨ih1, ih2⟩
    | pointerUp => exact ⟨ih1, ih2⟩
    | reset => exact ⟨ih1, ih2⟩
    | confirm =>
      simp only [applyEv]
      by_cases hp : s.isProcessing = true
      · rw [if_pos hp]
        exact ⟨ih1, ih2⟩
      · rw [if_neg hp]
        have h0 : s.activeWarps = 0 := by
          rcases Nat.le_one_iff_eq_zero_or_eq_one.mp ih1 with h | h
          · exact h
          · exact absurd (ih2 h) hp
        constructor
        · show s.activeWarps + 1 ≤ 1
          omega
        · intro _
          rfl
    | warpFailed =>
      simp only [applyEv]
      split_ifs with h
      · constructor
        · show s.activeWarps - 1 ≤ 1
          omega
        · intro h1
          have h2 : s.activeWarps - 1 = 1 := h1
          omega
      · exact ⟨ih1, ih2⟩
    | warpSucceeded =>
      simp only [applyEv]
      split_ifs with h
      · constructor
        · show s.activeWarps - 1 ≤ 1
          omega
        · intro h1
          have h2 : s.activeWarps - 1 = 1 := h1
          omega
      · exact ⟨ih1, ih2⟩

/-- Claim C10: in every reachable session state at most one warp is active; a
confirm while `isProcessing` is set returns the state unchanged (no new warp);
and a confirm can start a warp only when the flag is down. -/
theorem c10_no_overlap (s : EditorState) (hs : Reachable s) :
    s.activeWarps ≤ 1 ∧
    (s.isProcessing = true → applyEv Ev.confirm s = s) ∧
    ((applyEv Ev.confirm s).activeWarps ≠ s.activeWarps → s.isProcessing = false) := by
  obtain ⟨h1, _⟩ := c10_inv s hs
  refine ⟨h1, ?_, ?_⟩
  · intro hp
    simp only [applyEv, if_pos hp]
  · intro hne
    by_cases hp : s.isProcessing = true
    · exfalso
      apply hne
      simp only [applyEv, if_pos hp]
    · simpa using hp

/-- Witness for C10: after one confirm the flag blocks the next confirm. -/
theorem c10_witness :
    (applyEv Ev.confirm initState).activeWarps ≤ 1 ∧
    applyEv Ev.confirm (applyEv Ev.confirm initState) = applyEv Ev.confirm initState := by
  have h := c10_no_overlap (applyEv Ev.confirm initState)
    (Reachable.step _ _ Reachable.init)
  exact ⟨h.1, h.2.1 rfl⟩

/-! Claim C6: initialisation re-fires on resize. -/

/-- Claim C6 is violated by the code: the resize listener's closure captured the
initial empty `points` list, so its `points.length === 0` guard re-fires the
corner initialisation on every resize.  In the recorded trace, the drag had
moved point 0 to (60, 60); a resize with the *identical* container and image
sizes (so the recomputed geometry is unchanged) resets point 0 to (0, 0),
discarding the edit. -/
theorem c6_stale_resize :
    Reachable c6Trace4 ∧
    c6Trace3.points[0]? = some ⟨60, 60⟩ ∧
    c6Trace4.points[0]? = some ⟨0, 0⟩ ∧
    c6Trace4.dims = c6Trace3.dims := by
  refine ⟨?_, ?_, ?_, ?_⟩
  · exact Reachable.step _ _ (Reachable.step _ _ (Reachable.step _ _
      (Reachable.step _ _ Reachable.init)))
  · norm_num [c6Trace3, applyEv, initState, runUpdateLayout, updateLayout,
      handleMove, displayCorners]
  · norm_num [c6Trace4, c6Trace3, applyEv, initState, runUpdateLayout, updateLayout,
      handleMove, displayCorners]
  · norm_num [c6Trace4, c6Trace3, applyEv, initState, runUpdateLayout, updateLayout,
      handleMove, displayCorners]

end PerspectiveCore
